import Mathlib

/-!
# JDyncall: the Java-to-native call handler

A shallow embedding of `JavaToNativeCallHandler.c`
(`doJavaToNativeCallHandler` and `JavaToNativeCallHandler`).

* machine integers are mathematical integers, narrowed explicitly with
  `toSigned` where the C code casts or a typed read or call narrows;
* floating-point values are carried as their bit pattern (a non-negative
  integer); the handler only moves them, it never computes with them;
* the thread-local engine pointer, the argument stream, the result slot and
  the log of external operations are passed explicitly in `State`;
* a native fault inside the target is an outcome `none` of the call, which
  unwinds to the fault barrier of `JavaToNativeCallHandler`.
-/

namespace JDyncall

/-! ## Data model -/

/-- The enumeration `ValueType` of `jdyncall.hpp`, with the enumerators the
handler names.  A C enumeration object can hold a value that is none of its
enumerators; `unrecognised` stands for such a value. -/
inductive ValueType
  | eVoidValue
  | eWCharValue
  | eIntValue
  | eCLongValue
  | eSizeTValue
  | eLongValue
  | eShortValue
  | eByteValue
  | eFloatValue
  | eDoubleValue
  | unrecognised (code : Int)
  deriving DecidableEq, Repr

/-- One argument held by the call engine, tagged by the push operation
(`dcArgInt`, `dcArgLong`, ...) that put it there. -/
inductive DCArg
  | dcArgInt (v : Int)
  | dcArgLong (v : Int)
  | dcArgLongLong (v : Int)
  | dcArgShort (v : Int)
  | dcArgChar (v : Int)
  | dcArgFloat (bits : Int)
  | dcArgDouble (bits : Int)
  deriving DecidableEq, Repr

/-- The typed call operations of the engine. -/
inductive DCCall
  | dcCallInt
  | dcCallLong
  | dcCallLongLong
  | dcCallShort
  | dcCallChar
  | dcCallFloat
  | dcCallDouble
  | dcCallVoid
  deriving DecidableEq, Repr

/-- The typed read operations on the argument stream. -/
inductive DCBArg
  | dcbArgPointer
  | dcbArgInt
  | dcbArgLongLong
  | dcbArgShort
  | dcbArgChar
  | dcbArgFloat
  | dcbArgDouble
  deriving DecidableEq, Repr

/-- The members of the result slot `DCValue` that the handler assigns. -/
inductive Field
  | i
  | l
  | s
  | f
  | d
  | c
  deriving DecidableEq, Repr

/-- The result slot `DCValue`, by member.  Only the members the handler
assigns are tracked, each on its own: how the members of the C union share
storage is a matter of memory layout and is not modelled. -/
structure DCValue where
  i : Int
  l : Int
  s : Int
  f : Int
  d : Int
  c : Int
  deriving DecidableEq, Repr

/-- The call engine `DCCallVM`: the capacity it was created with, the
calling-convention mode, and the pending arguments in push order. -/
structure DCCallVM where
  size : Nat
  mode : Int
  args : List DCArg
  deriving DecidableEq, Repr

/-- The argument stream `DCArgs`: the raw slots laid down by the trampoline
and the index of the next slot to read.  The stream is forward-only and has
no end marker, as in C. -/
structure DCArgs where
  slots : Nat → Int
  pos : Nat

/-- The descriptor `MethodCallInfo`.  `fParamTypes` is the C array together
with its length `nParams`; a symbol or an environment is a bare handle. -/
structure MethodCallInfo where
  fParamTypes : List ValueType
  fDCMode : Int
  fForwardedSymbol : Nat
  fReturnType : ValueType
  fEnv : Nat
  deriving DecidableEq, Repr

/-- The field `nParams` of the descriptor: the length of `fParamTypes`. -/
def MethodCallInfo.nParams (info : MethodCallInfo) : Nat :=
  info.fParamTypes.length

/-- One externally visible operation of the handler. -/
inductive Event
  | read (op : DCBArg)
  | newCallVM (size : Nat)
  | mode (m : Int)
  | push (a : DCArg)
  | call (op : DCCall) (callback : Nat) (pending : List DCArg)
  | store (field : Field) (v : Int)
  | throwException (env : Nat)
  deriving DecidableEq, Repr

/-- The table of type-tag characters `DC_SIGCHAR_*` of the engine's headers,
taken as given: the handler only names them. -/
structure SigChars where
  DC_SIGCHAR_VOID : Int
  DC_SIGCHAR_INT : Int
  DC_SIGCHAR_LONGLONG : Int
  DC_SIGCHAR_SHORT : Int
  DC_SIGCHAR_FLOAT : Int
  DC_SIGCHAR_DOUBLE : Int
  DC_SIGCHAR_CHAR : Int
  DC_SIGCHAR_LONG : Int
  deriving DecidableEq, Repr

/-- What the handler is compiled and run against: the sizes of `long` and
`size_t` in bytes, the tag table, and the native code behind each symbol.
`native callback mode pending` is the raw return register of the target
run under `mode` on the pending arguments, or `none` when the target raises
a native fault. -/
structure Host where
  sizeofLong : Nat
  sizeofSizeT : Nat
  sig : SigChars
  native : Nat → Int → List DCArg → Option Int

/-- Everything a dispatch reads and writes: the thread-local engine pointer
(`none` is `NULL`), the argument stream, the result slot, and the log of
operations performed so far. -/
structure State where
  vm : Option DCCallVM
  args : DCArgs
  result : DCValue
  trace : List Event

/-! ## Integer conversions -/

/-- Narrowing of an integer to a signed two-complement value of `bits`
bits. -/
def toSigned (bits : Nat) (v : Int) : Int :=
  if v % 2 ^ bits < 2 ^ (bits - 1) then v % 2 ^ bits else v % 2 ^ bits - 2 ^ bits

/-- The low `bits` bits of an integer, as a bit pattern. -/
def toBits (bits : Nat) (v : Int) : Int :=
  v % 2 ^ bits

/-! ## The argument stream reader -/

/-- Raw read of the next slot of the stream by operation `op`. -/
def dcbArg (op : DCBArg) (s : State) : Int × State :=
  (s.args.slots s.args.pos,
   { s with args := { s.args with pos := s.args.pos + 1 },
            trace := s.trace ++ [Event.read op] })

/-- Read a pointer-sized handle. -/
def dcbArgPointer (s : State) : Int × State :=
  dcbArg DCBArg.dcbArgPointer s

/-- Read an `int`. -/
def dcbArgInt (s : State) : Int × State :=
  (toSigned 32 (dcbArg DCBArg.dcbArgInt s).1, (dcbArg DCBArg.dcbArgInt s).2)

/-- Read a `long long`. -/
def dcbArgLongLong (s : State) : Int × State :=
  (toSigned 64 (dcbArg DCBArg.dcbArgLongLong s).1, (dcbArg DCBArg.dcbArgLongLong s).2)

/-- Read a `short`. -/
def dcbArgShort (s : State) : Int × State :=
  (toSigned 16 (dcbArg DCBArg.dcbArgShort s).1, (dcbArg DCBArg.dcbArgShort s).2)

/-- Read a `char`. -/
def dcbArgChar (s : State) : Int × State :=
  (toSigned 8 (dcbArg DCBArg.dcbArgChar s).1, (dcbArg DCBArg.dcbArgChar s).2)

/-- Read a `float`, as its 32-bit pattern. -/
def dcbArgFloat (s : State) : Int × State :=
  (toBits 32 (dcbArg DCBArg.dcbArgFloat s).1, (dcbArg DCBArg.dcbArgFloat s).2)

/-- Read a `double`, as its 64-bit pattern. -/
def dcbArgDouble (s : State) : Int × State :=
  (toBits 64 (dcbArg DCBArg.dcbArgDouble s).1, (dcbArg DCBArg.dcbArgDouble s).2)

/-! ## The call engine -/

/-- Modelled from the spec: the engine operation `create(maxArgBytes)`
(`dcNewCallVM`, not in the source tree); a fresh engine has no pending
argument. -/
def dcNewCallVM (size : Nat) (s : State) : State :=
  { s with vm := some { size := size, mode := 0, args := [] },
           trace := s.trace ++ [Event.newCallVM size] }

/-- Modelled from the spec: the engine operation `setMode(handle, modeTag)`
(`dcMode`, not in the source tree), which also clears the pending
arguments. -/
def dcMode (mode : Int) (s : State) : State :=
  { s with vm := s.vm.map (fun vm => { vm with mode := mode, args := [] }),
           trace := s.trace ++ [Event.mode mode] }

/-- Modelled from the spec: the engine operations `push<Kind>(handle, value)`
(`dcArgInt`, `dcArgLong`, ..., not in the source tree); the value is
appended to the pending arguments. -/
def dcArg (a : DCArg) (s : State) : State :=
  { s with vm := s.vm.map (fun vm => { vm with args := vm.args ++ [a] }),
           trace := s.trace ++ [Event.push a] }

/-- The pending arguments of the engine (none when there is no engine). -/
def pendingArgs (s : State) : List DCArg :=
  match s.vm with
  | some vm => vm.args
  | none => []

/-- The mode of the engine. -/
def currentMode (s : State) : Int :=
  match s.vm with
  | some vm => vm.mode
  | none => 0

/-- The value a typed call hands back, from the raw return register. -/
def callResult (h : Host) : DCCall → Int → Int
  | DCCall.dcCallInt, raw => toSigned 32 raw
  | DCCall.dcCallLong, raw => toSigned (8 * h.sizeofLong) raw
  | DCCall.dcCallLongLong, raw => toSigned 64 raw
  | DCCall.dcCallShort, raw => toSigned 16 raw
  | DCCall.dcCallChar, raw => toSigned 8 raw
  | DCCall.dcCallFloat, raw => toBits 32 raw
  | DCCall.dcCallDouble, raw => toBits 64 raw
  | DCCall.dcCallVoid, _ => 0

/-- Modelled from the spec: the engine operations
`call<Kind>(handle, targetSymbol)` and `callVoid` (`dcCallInt`, ...,
`dcCallVoid`, not in the source tree): the target runs on the pending
arguments; `none` is a native fault in the target.  The arguments stay
pending after the call: the specification attributes the clearing of pending
arguments to `setMode` alone. -/
def dcCall (h : Host) (op : DCCall) (callback : Nat) (s : State) : Option Int × State :=
  ((h.native callback (currentMode s) (pendingArgs s)).map (callResult h op),
   { s with trace := s.trace ++ [Event.call op callback (pendingArgs s)] })

/-! ## The handler -/

/-- Assignment `result->field = v`. -/
def DCValue.set (r : DCValue) : Field → Int → DCValue
  | Field.i, v => { r with i := v }
  | Field.l, v => { r with l := v }
  | Field.s, v => { r with s := v }
  | Field.f, v => { r with f := v }
  | Field.d, v => { r with d := v }
  | Field.c, v => { r with c := v }

/-- Read of `result->field`. -/
def DCValue.get (r : DCValue) : Field → Int
  | Field.i => r.i
  | Field.l => r.l
  | Field.s => r.s
  | Field.f => r.f
  | Field.d => r.d
  | Field.c => r.c

/-- Assignment to a member of the result slot, logged. -/
def storeResult (field : Field) (v : Int) (s : State) : State :=
  { s with result := s.result.set field v,
           trace := s.trace ++ [Event.store field v] }

/-- The body of the parameter loop for one parameter: the `switch (type)` of
`doJavaToNativeCallHandler`.  A kind with no `case` reads nothing and pushes
nothing. -/
def pushParam (h : Host) (type : ValueType) (s : State) : State :=
  match type with
  | ValueType.eIntValue =>
      dcArg (DCArg.dcArgInt (dcbArgInt s).1) (dcbArgInt s).2
  | ValueType.eCLongValue =>
      dcArg (DCArg.dcArgLong (toSigned (8 * h.sizeofLong) (dcbArgLongLong s).1)) (dcbArgLongLong s).2
  | ValueType.eSizeTValue =>
      if h.sizeofSizeT = 4 then
        dcArg (DCArg.dcArgInt (toSigned 32 (dcbArgLongLong s).1)) (dcbArgLongLong s).2
      else
        dcArg (DCArg.dcArgLongLong (dcbArgLongLong s).1) (dcbArgLongLong s).2
  | ValueType.eLongValue =>
      dcArg (DCArg.dcArgLongLong (dcbArgLongLong s).1) (dcbArgLongLong s).2
  | ValueType.eShortValue =>
      dcArg (DCArg.dcArgShort (dcbArgShort s).1) (dcbArgShort s).2
  | ValueType.eByteValue =>
      dcArg (DCArg.dcArgChar (dcbArgChar s).1) (dcbArgChar s).2
  | ValueType.eFloatValue =>
      dcArg (DCArg.dcArgFloat (dcbArgFloat s).1) (dcbArgFloat s).2
  | ValueType.eDoubleValue =>
      dcArg (DCArg.dcArgDouble (dcbArgDouble s).1) (dcbArgDouble s).2
  | _ => s

/-- The parameter loop `for (iParam = 0; iParam < nParams; iParam++)`, over
the parameter kinds from `fParamTypes[iParam]` on. -/
def pushParams (h : Host) : List ValueType → State → State
  | [], s => s
  | type :: rest, s => pushParams h rest (pushParam h type s)

/-- The pattern `CALL_CASE` and the two hand-written value cases: issue the
typed call `op`, assign what it returns to `result->field`, and answer
`tag`.  A fault in the target leaves the function before the assignment. -/
def callCase (h : Host) (op : DCCall) (field : Field) (tag : Int) (callback : Nat)
    (s : State) : Option Int × State :=
  match dcCall h op callback s with
  | (some v, s1) => (some tag, storeResult field v s1)
  | (none, s1) => (none, s1)

/-- Lines 11 to 54 of `doJavaToNativeCallHandler`: read the environment and
the receiver handle, create the thread's engine when the static pointer is
still null (capacity 1024), set the mode, and run the parameter loop. -/
def pushArguments (h : Host) (info : MethodCallInfo) (s : State) : State :=
  let s1 := (dcbArgPointer s).2
  let s2 := (dcbArgPointer s1).2
  let s3 := match s2.vm with
    | none => dcNewCallVM 1024 s2
    | some _ => s2
  let s4 := dcMode info.fDCMode s3
  pushParams h info.fParamTypes s4

/-- The function `doJavaToNativeCallHandler`: `pushArguments`, then the
`switch (info->fReturnType)`.  The answer is the returned character, or
`none` when a native fault unwinds out of the function. -/
def doJavaToNativeCallHandler (h : Host) (info : MethodCallInfo) (s : State) :
    Option Int × State :=
  let s5 := pushArguments h info s
  let callback := info.fForwardedSymbol
  match info.fReturnType with
  | ValueType.eIntValue =>
      callCase h DCCall.dcCallInt Field.i h.sig.DC_SIGCHAR_INT callback s5
  | ValueType.eLongValue =>
      callCase h DCCall.dcCallLong Field.l h.sig.DC_SIGCHAR_LONGLONG callback s5
  | ValueType.eShortValue =>
      callCase h DCCall.dcCallShort Field.s h.sig.DC_SIGCHAR_SHORT callback s5
  | ValueType.eFloatValue =>
      callCase h DCCall.dcCallFloat Field.f h.sig.DC_SIGCHAR_FLOAT callback s5
  | ValueType.eDoubleValue =>
      callCase h DCCall.dcCallDouble Field.d h.sig.DC_SIGCHAR_DOUBLE callback s5
  | ValueType.eByteValue =>
      callCase h DCCall.dcCallChar Field.c h.sig.DC_SIGCHAR_CHAR callback s5
  | ValueType.eCLongValue =>
      callCase h DCCall.dcCallLong Field.l h.sig.DC_SIGCHAR_LONG callback s5
  | ValueType.eSizeTValue =>
      if h.sizeofSizeT = 4 then
        callCase h DCCall.dcCallInt Field.l h.sig.DC_SIGCHAR_LONG callback s5
      else
        callCase h DCCall.dcCallLongLong Field.l h.sig.DC_SIGCHAR_LONG callback s5
  | ValueType.eVoidValue =>
      match dcCall h DCCall.dcCallVoid callback s5 with
      | (some _, s6) => (some h.sig.DC_SIGCHAR_VOID, s6)
      | (none, s6) => (none, s6)
  | _ => (some h.sig.DC_SIGCHAR_VOID, s5)

/-- Modelled from the spec: the fault barrier `BEGIN_TRY()` ...
`END_TRY_RET(env, ret)` of `Exceptions.h` (not in the source tree).  A
normal return passes through; an intercepted native fault signals an
exception against `env` and the enclosing function returns `ret`, the value
the source hands to the barrier at line 102. -/
def END_TRY_RET (env : Nat) (ret : Int) : Option Int × State → Int × State
  | (some v, s) => (v, s)
  | (none, s) => (ret, { s with trace := s.trace ++ [Event.throwException env] })

/-- The function `JavaToNativeCallHandler`; `userdata` is `none` when the
pointer is null.  The `callback` argument is not used by the function. -/
def JavaToNativeCallHandler (h : Host) (_callback : Nat) (userdata : Option MethodCallInfo)
    (s : State) : Int × State :=
  match userdata with
  | none => (h.sig.DC_SIGCHAR_VOID, s)
  | some info => END_TRY_RET info.fEnv 0 (doJavaToNativeCallHandler h info s)

/-! ## Reading the log -/

/-- The operations a dispatch added to the log: what `s1` logged after the
log of `s0`. -/
def newEvents (s0 s1 : State) : List Event :=
  s1.trace.drop s0.trace.length

/-- The pushes of a log, in order. -/
def pushesOf (es : List Event) : List DCArg :=
  es.filterMap (fun e => match e with
    | Event.push a => some a
    | _ => none)

/-- The calls of a log, in order: operation, target and the arguments that
were pending when the call was issued. -/
def callsOf (es : List Event) : List (DCCall × Nat × List DCArg) :=
  es.filterMap (fun e => match e with
    | Event.call op callback pending => some (op, callback, pending)
    | _ => none)

/-- The assignments to the result slot of a log, in order. -/
def storesOf (es : List Event) : List (Field × Int) :=
  es.filterMap (fun e => match e with
    | Event.store field v => some (field, v)
    | _ => none)

/-- The exceptions signalled in a log, by environment. -/
def throwsOf (es : List Event) : List Nat :=
  es.filterMap (fun e => match e with
    | Event.throwException env => some env
    | _ => none)

/-! ## The mapping of the specification -/

/-- The supported parameter kinds of the specification: Int32, Long, SizeT,
Int64, Int16, Byte, Float32, Float64. -/
def isSupportedParam : ValueType → Bool
  | ValueType.eIntValue => true
  | ValueType.eCLongValue => true
  | ValueType.eSizeTValue => true
  | ValueType.eLongValue => true
  | ValueType.eShortValue => true
  | ValueType.eByteValue => true
  | ValueType.eFloatValue => true
  | ValueType.eDoubleValue => true
  | _ => false

/-- The typed value of the specification: the next slot of the stream read
as the type declared by the kind (Long and SizeT are read as 64-bit
values). -/
def specRead : ValueType → Int → Int
  | ValueType.eIntValue, raw => toSigned 32 raw
  | ValueType.eCLongValue, raw => toSigned 64 raw
  | ValueType.eSizeTValue, raw => toSigned 64 raw
  | ValueType.eLongValue, raw => toSigned 64 raw
  | ValueType.eShortValue, raw => toSigned 16 raw
  | ValueType.eByteValue, raw => toSigned 8 raw
  | ValueType.eFloatValue, raw => toBits 32 raw
  | ValueType.eDoubleValue, raw => toBits 64 raw
  | _, raw => raw

/-- The kind-to-push mapping of the specification (section 4.1, step 3):
a direct typed push for Int32, Int16, Byte, Float32, Float64 and Int64; the
native-long push of the narrowed value for Long; for SizeT the 32-bit push
of the low 32 bits when the word width is 4 bytes and the 64-bit push of
the full value otherwise; no push for any other kind. -/
def specPush (h : Host) : ValueType → Int → Option DCArg
  | ValueType.eIntValue, v => some (DCArg.dcArgInt v)
  | ValueType.eShortValue, v => some (DCArg.dcArgShort v)
  | ValueType.eByteValue, v => some (DCArg.dcArgChar v)
  | ValueType.eFloatValue, v => some (DCArg.dcArgFloat v)
  | ValueType.eDoubleValue, v => some (DCArg.dcArgDouble v)
  | ValueType.eLongValue, v => some (DCArg.dcArgLongLong v)
  | ValueType.eCLongValue, v => some (DCArg.dcArgLong (toSigned (8 * h.sizeofLong) v))
  | ValueType.eSizeTValue, v =>
      if h.sizeofSizeT = 4 then some (DCArg.dcArgInt (toSigned 32 v))
      else some (DCArg.dcArgLongLong v)
  | _, _ => none

/-! ## The parameter loop as a list of steps -/

/-- The read and the push that one turn of the parameter loop performs on
the raw slot `raw`, or `none` when the kind has no `case`. -/
def paramStep (h : Host) (type : ValueType) (raw : Int) : Option (DCBArg × DCArg) :=
  match specPush h type (specRead type raw) with
  | none => none
  | some a =>
    some (match type with
      | ValueType.eIntValue => DCBArg.dcbArgInt
      | ValueType.eShortValue => DCBArg.dcbArgShort
      | ValueType.eByteValue => DCBArg.dcbArgChar
      | ValueType.eFloatValue => DCBArg.dcbArgFloat
      | ValueType.eDoubleValue => DCBArg.dcbArgDouble
      | _ => DCBArg.dcbArgLongLong, a)

/-- The steps of the whole loop over `kinds`, the next slot being `pos`: a
kind with no `case` consumes no slot. -/
def loopSteps (h : Host) (slots : Nat → Int) : List ValueType → Nat → List (DCBArg × DCArg)
  | [], _ => []
  | type :: rest, pos =>
    match paramStep h type (slots pos) with
    | some st => st :: loopSteps h slots rest (pos + 1)
    | none => loopSteps h slots rest pos

/-- The log entries of a list of steps. -/
def stepEvents : List (DCBArg × DCArg) → List Event
  | [] => []
  | st :: rest => Event.read st.1 :: Event.push st.2 :: stepEvents rest

/-- The state after a list of steps. -/
def applySteps (steps : List (DCBArg × DCArg)) (s : State) : State :=
  { vm := s.vm.map (fun vm => { vm with args := vm.args ++ steps.map Prod.snd }),
    args := { slots := s.args.slots, pos := s.args.pos + steps.length },
    result := s.result,
    trace := s.trace ++ stepEvents steps }

/-- The log entries of lines 11 to 21: two handle reads, the creation of the
engine when there was none, and the mode setting. -/
def preludeEvents (info : MethodCallInfo) (s : State) : List Event :=
  [Event.read DCBArg.dcbArgPointer, Event.read DCBArg.dcbArgPointer] ++
    (match s.vm with
      | none => [Event.newCallVM 1024]
      | some _ => []) ++
    [Event.mode info.fDCMode]

/-- The capacity of the thread's engine once a dispatch has run. -/
def engineSize (s : State) : Nat :=
  match s.vm with
  | none => 1024
  | some vm => vm.size

/-- The steps of the parameter loop of a dispatch of `info` from state `s`:
the typed values start after the two handles. -/
def argSteps (h : Host) (info : MethodCallInfo) (s : State) : List (DCBArg × DCArg) :=
  loopSteps h s.args.slots info.fParamTypes (s.args.pos + 2)

/-! ## The return switch as a table -/

/-- The call operation, the member assigned (if any) and the tag of each
`case` of `switch (info->fReturnType)`; `none` for the kinds that fall to
`default`, where no call is issued. -/
def returnPlan (h : Host) : ValueType → Option (DCCall × Option Field × Int)
  | ValueType.eIntValue => some (DCCall.dcCallInt, some Field.i, h.sig.DC_SIGCHAR_INT)
  | ValueType.eLongValue => some (DCCall.dcCallLong, some Field.l, h.sig.DC_SIGCHAR_LONGLONG)
  | ValueType.eShortValue => some (DCCall.dcCallShort, some Field.s, h.sig.DC_SIGCHAR_SHORT)
  | ValueType.eFloatValue => some (DCCall.dcCallFloat, some Field.f, h.sig.DC_SIGCHAR_FLOAT)
  | ValueType.eDoubleValue => some (DCCall.dcCallDouble, some Field.d, h.sig.DC_SIGCHAR_DOUBLE)
  | ValueType.eByteValue => some (DCCall.dcCallChar, some Field.c, h.sig.DC_SIGCHAR_CHAR)
  | ValueType.eCLongValue => some (DCCall.dcCallLong, some Field.l, h.sig.DC_SIGCHAR_LONG)
  | ValueType.eSizeTValue =>
      some (if h.sizeofSizeT = 4 then DCCall.dcCallInt else DCCall.dcCallLongLong,
        some Field.l, h.sig.DC_SIGCHAR_LONG)
  | ValueType.eVoidValue => some (DCCall.dcCallVoid, none, h.sig.DC_SIGCHAR_VOID)
  | _ => none

/-- The raw outcome of the target of `info` on the engine of state `s`. -/
def targetOutcome (h : Host) (info : MethodCallInfo) (s : State) : Option Int :=
  h.native info.fForwardedSymbol (currentMode s) (pendingArgs s)

/-- The answer of the return switch run in state `s`. -/
def returnTag (h : Host) (info : MethodCallInfo) (s : State) : Option Int :=
  match returnPlan h info.fReturnType with
  | none => some h.sig.DC_SIGCHAR_VOID
  | some (_, _, tag) => (targetOutcome h info s).map (fun _ => tag)

/-- The assignment of the return switch run in state `s`, if any. -/
def returnStore (h : Host) (info : MethodCallInfo) (s : State) : Option (Field × Int) :=
  match returnPlan h info.fReturnType with
  | some (op, some field, _) => (targetOutcome h info s).map (fun raw => (field, callResult h op raw))
  | _ => none

/-- The call of the return switch run in state `s`, if any. -/
def returnCall (h : Host) (info : MethodCallInfo) (s : State) :
    Option (DCCall × Nat × List DCArg) :=
  (returnPlan h info.fReturnType).map
    (fun plan => (plan.1, info.fForwardedSymbol, pendingArgs s))

/-- The log entries of the return switch run in state `s`. -/
def returnEvents (h : Host) (info : MethodCallInfo) (s : State) : List Event :=
  (match returnCall h info s with
    | some (op, callback, pending) => [Event.call op callback pending]
    | none => []) ++
  (match returnStore h info s with
    | some (field, v) => [Event.store field v]
    | none => [])

/-- The result slot after the return switch run in state `s`. -/
def returnResult (h : Host) (info : MethodCallInfo) (s : State) : DCValue :=
  match returnStore h info s with
  | some (field, v) => s.result.set field v
  | none => s.result

/-! ## Concrete hosts and inputs -/

/-- The tag characters as `dyncall_signature.h` defines them: 'v', 'i', 'l',
's', 'f', 'd', 'c' and 'j'. -/
def dyncallSigChars : SigChars :=
  { DC_SIGCHAR_VOID := 118,
    DC_SIGCHAR_INT := 105,
    DC_SIGCHAR_LONGLONG := 108,
    DC_SIGCHAR_SHORT := 115,
    DC_SIGCHAR_FLOAT := 102,
    DC_SIGCHAR_DOUBLE := 100,
    DC_SIGCHAR_CHAR := 99,
    DC_SIGCHAR_LONG := 106 }

/-- A stream holding the given slots, then zeros. -/
def streamOf (slots : List Int) : DCArgs :=
  { slots := fun n => slots.getD n 0, pos := 0 }

/-- A thread that has not dispatched yet, about to read `slots`. -/
def freshState (slots : List Int) : State :=
  { vm := none,
    args := streamOf slots,
    result := { i := 0, l := 0, s := 0, f := 0, d := 0, c := 0 },
    trace := [] }

/-- A target that returns `raw` whatever it is given. -/
def constTarget (raw : Int) : Nat → Int → List DCArg → Option Int :=
  fun _ _ _ => some raw

/-- A target that raises a native fault. -/
def faultingTarget : Nat → Int → List DCArg → Option Int :=
  fun _ _ _ => none

/-- A target that adds its two `int` arguments. -/
def addTarget : Nat → Int → List DCArg → Option Int :=
  fun _ _ pending =>
    match pending with
    | [DCArg.dcArgInt x, DCArg.dcArgInt y] => some (x + y)
    | _ => some 0

/-- A host where `long` and `size_t` are 4 bytes wide. -/
def hostILP32 (native : Nat → Int → List DCArg → Option Int) : Host :=
  { sizeofLong := 4, sizeofSizeT := 4, sig := dyncallSigChars, native := native }

/-- A host where `long` is 4 bytes and `size_t` 8 bytes wide. -/
def hostLLP64 (native : Nat → Int → List DCArg → Option Int) : Host :=
  { sizeofLong := 4, sizeofSizeT := 8, sig := dyncallSigChars, native := native }

/-- A host where `long` and `size_t` are 8 bytes wide. -/
def hostLP64 (native : Nat → Int → List DCArg → Option Int) : Host :=
  { sizeofLong := 8, sizeofSizeT := 8, sig := dyncallSigChars, native := native }

/-- A descriptor with the given parameter kinds and return kind, for target
symbol 1 and environment 9. -/
def descriptor (kinds : List ValueType) (ret : ValueType) : MethodCallInfo :=
  { fParamTypes := kinds, fDCMode := 0, fForwardedSymbol := 1, fReturnType := ret, fEnv := 9 }

/-- The direct typed return of the specification (section 4.1, step 4):
Int32, Int64, Int16, Float32, Float64 and Byte are called through the call
operation of their own kind, the result goes to the member of that kind,
and the tag is that kind's code. -/
def specDirectReturn (h : Host) : ValueType → Option (DCCall × Field × Int)
  | ValueType.eIntValue => some (DCCall.dcCallInt, Field.i, h.sig.DC_SIGCHAR_INT)
  | ValueType.eLongValue => some (DCCall.dcCallLongLong, Field.l, h.sig.DC_SIGCHAR_LONGLONG)
  | ValueType.eShortValue => some (DCCall.dcCallShort, Field.s, h.sig.DC_SIGCHAR_SHORT)
  | ValueType.eFloatValue => some (DCCall.dcCallFloat, Field.f, h.sig.DC_SIGCHAR_FLOAT)
  | ValueType.eDoubleValue => some (DCCall.dcCallDouble, Field.d, h.sig.DC_SIGCHAR_DOUBLE)
  | ValueType.eByteValue => some (DCCall.dcCallChar, Field.c, h.sig.DC_SIGCHAR_CHAR)
  | _ => none

/-- The call operation the return switch selects for return kinds Long and
SizeT: `dcCallLong` for Long; for SizeT `dcCallInt` when `size_t` is 4 bytes
wide and `dcCallLongLong` otherwise. -/
def wordReturnCall (h : Host) (kind : ValueType) : DCCall :=
  if kind = ValueType.eSizeTValue then
    (if h.sizeofSizeT = 4 then DCCall.dcCallInt else DCCall.dcCallLongLong)
  else DCCall.dcCallLong

/-- The state in which the next dispatch on the same thread starts: the
engine pointer and the log persist, the trampoline supplies a new argument
stream and a new result slot. -/
def nextCall (s : State) (args : DCArgs) (result : DCValue) : State :=
  { s with args := args, result := result }

/-! ## Further readings of the log and of the descriptor -/

/-- The reads of a log, in order. -/
def readsOf (es : List Event) : List DCBArg :=
  es.filterMap (fun e => match e with
    | Event.read op => some op
    | _ => none)

/-- The engine creations of a log, by capacity. -/
def createsOf (es : List Event) : List Nat :=
  es.filterMap (fun e => match e with
    | Event.newCallVM size => some size
    | _ => none)

/-- The engine operations of a log, in order: creations, mode settings,
pushes and calls. -/
def engineOpsOf (es : List Event) : List Event :=
  es.filter (fun e => match e with
    | Event.newCallVM _ => true
    | Event.mode _ => true
    | Event.push _ => true
    | Event.call _ _ _ => true
    | _ => false)

/-- The read that the `case` of a parameter kind performs in the parameter
loop, or `none` for a kind with no `case`. -/
def paramRead : ValueType → Option DCBArg
  | ValueType.eIntValue => some DCBArg.dcbArgInt
  | ValueType.eCLongValue => some DCBArg.dcbArgLongLong
  | ValueType.eSizeTValue => some DCBArg.dcbArgLongLong
  | ValueType.eLongValue => some DCBArg.dcbArgLongLong
  | ValueType.eShortValue => some DCBArg.dcbArgShort
  | ValueType.eByteValue => some DCBArg.dcbArgChar
  | ValueType.eFloatValue => some DCBArg.dcbArgFloat
  | ValueType.eDoubleValue => some DCBArg.dcbArgDouble
  | _ => none

/-- The return kinds of the specification for which a call is issued:
Int32, Int64, Int16, Byte, Float32, Float64, Long, SizeT and Void. -/
def issuesCall : ValueType → Bool
  | ValueType.eIntValue => true
  | ValueType.eLongValue => true
  | ValueType.eShortValue => true
  | ValueType.eByteValue => true
  | ValueType.eFloatValue => true
  | ValueType.eDoubleValue => true
  | ValueType.eCLongValue => true
  | ValueType.eSizeTValue => true
  | ValueType.eVoidValue => true
  | _ => false

/-- The descriptor with its parameters of unsupported kinds left out. -/
def supportedOnly (info : MethodCallInfo) : MethodCallInfo :=
  { info with fParamTypes := info.fParamTypes.filter isSupportedParam }

/-- The tag that the `case` of a return kind assigns to `returnVal`; the
kinds with no `case` of their own keep `DC_SIGCHAR_VOID`. -/
def kindTag (sig : SigChars) : ValueType → Int
  | ValueType.eIntValue => sig.DC_SIGCHAR_INT
  | ValueType.eLongValue => sig.DC_SIGCHAR_LONGLONG
  | ValueType.eShortValue => sig.DC_SIGCHAR_SHORT
  | ValueType.eFloatValue => sig.DC_SIGCHAR_FLOAT
  | ValueType.eDoubleValue => sig.DC_SIGCHAR_DOUBLE
  | ValueType.eByteValue => sig.DC_SIGCHAR_CHAR
  | ValueType.eCLongValue => sig.DC_SIGCHAR_LONG
  | ValueType.eSizeTValue => sig.DC_SIGCHAR_LONG
  | _ => sig.DC_SIGCHAR_VOID

/-- One invocation of the handler by the trampoline: the callback handle,
the descriptor, the argument stream and the result slot. -/
structure Invocation where
  callback : Nat
  info : MethodCallInfo
  args : DCArgs
  result : DCValue

/-- A sequence of invocations with non-null descriptors on one thread, one
after the other. -/
def runInvocations (h : Host) : List Invocation → State → State
  | [], s => s
  | c :: rest, s =>
    runInvocations h rest
      (JavaToNativeCallHandler h c.callback (some c.info) (nextCall s c.args c.result)).2

/-! ## Theorems -/

theorem newEvents_append (s0 s1 : State) (es : List Event) (h : s1.trace = s0.trace ++ es) :
    newEvents s0 s1 = es := by
  simp [newEvents, h]

theorem pushesOf_stepEvents (steps : List (DCBArg × DCArg)) :
    pushesOf (stepEvents steps) = steps.map Prod.snd := by
  induction steps with
  | nil => rfl
  | cons st rest ih =>
    simp only [pushesOf] at ih
    simp [stepEvents, pushesOf, ih]

theorem callsOf_stepEvents (steps : List (DCBArg × DCArg)) :
    callsOf (stepEvents steps) = [] := by
  induction steps with
  | nil => rfl
  | cons st rest ih =>
    simp only [callsOf] at ih
    simp [stepEvents, callsOf, ih]

theorem storesOf_stepEvents (steps : List (DCBArg × DCArg)) :
    storesOf (stepEvents steps) = [] := by
  induction steps with
  | nil => rfl
  | cons st rest ih =>
    simp only [storesOf] at ih
    simp [stepEvents, storesOf, ih]

theorem pushParam_eq (h : Host) (type : ValueType) (s : State) :
    pushParam h type s =
      match paramStep h type (s.args.slots s.args.pos) with
      | some st => applySteps [st] s
      | none => s := by
  cases type <;>
    simp [pushParam, paramStep, specPush, specRead, applySteps, stepEvents, dcArg, dcbArg,
      dcbArgInt, dcbArgLongLong, dcbArgShort, dcbArgChar, dcbArgFloat, dcbArgDouble]
  split <;> simp

theorem applySteps_cons (st : DCBArg × DCArg) (rest : List (DCBArg × DCArg)) (s : State) :
    applySteps rest (applySteps [st] s) = applySteps (st :: rest) s := by
  cases s with
  | mk vm args result trace =>
    cases vm <;> simp [applySteps, stepEvents, Nat.add_assoc, Nat.add_comm 1]

theorem pushParams_eq (h : Host) (kinds : List ValueType) (s : State) :
    pushParams h kinds s = applySteps (loopSteps h s.args.slots kinds s.args.pos) s := by
  induction kinds generalizing s with
  | nil =>
    cases s with
    | mk vm args result trace => cases vm <;> simp [pushParams, loopSteps, applySteps, stepEvents]
  | cons type rest ih =>
    rw [pushParams, ih, pushParam_eq]
    cases hst : paramStep h type (s.args.slots s.args.pos) with
    | none => simp [loopSteps, hst]
    | some st =>
      simp only [loopSteps, hst]
      exact applySteps_cons st _ s

theorem pushArguments_eq (h : Host) (info : MethodCallInfo) (s : State) :
    pushArguments h info s =
      { vm := some { size := engineSize s, mode := info.fDCMode,
                     args := (argSteps h info s).map Prod.snd },
        args := { slots := s.args.slots, pos := s.args.pos + 2 + (argSteps h info s).length },
        result := s.result,
        trace := s.trace ++ (preludeEvents info s ++ stepEvents (argSteps h info s)) } := by
  unfold pushArguments
  simp only [pushParams_eq]
  cases s with
  | mk vm args result trace =>
    cases vm <;>
      simp [applySteps, dcMode, dcNewCallVM, dcbArgPointer, dcbArg, preludeEvents, engineSize,
        argSteps]

theorem pendingArgs_pushArguments (h : Host) (info : MethodCallInfo) (s : State) :
    pendingArgs (pushArguments h info s) = (argSteps h info s).map Prod.snd := by
  rw [pushArguments_eq]; rfl

theorem currentMode_pushArguments (h : Host) (info : MethodCallInfo) (s : State) :
    currentMode (pushArguments h info s) = info.fDCMode := by
  rw [pushArguments_eq]; rfl

theorem trace_pushArguments (h : Host) (info : MethodCallInfo) (s : State) :
    (pushArguments h info s).trace =
      s.trace ++ (preludeEvents info s ++ stepEvents (argSteps h info s)) := by
  rw [pushArguments_eq]

theorem result_pushArguments (h : Host) (info : MethodCallInfo) (s : State) :
    (pushArguments h info s).result = s.result := by
  rw [pushArguments_eq]

theorem callCase_eq (h : Host) (op : DCCall) (field : Field) (tag : Int) (callback : Nat)
    (s : State) :
    callCase h op field tag callback s =
      match h.native callback (currentMode s) (pendingArgs s) with
      | some raw =>
        (some tag,
          { s with result := s.result.set field (callResult h op raw),
                   trace := s.trace ++ [Event.call op callback (pendingArgs s),
                     Event.store field (callResult h op raw)] })
      | none => (none, { s with trace := s.trace ++ [Event.call op callback (pendingArgs s)] }) := by
  unfold callCase dcCall
  cases h.native callback (currentMode s) (pendingArgs s) <;> simp [storeResult]

/-- The function `doJavaToNativeCallHandler` in closed form: the state after
lines 11 to 54, then the call, the assignment and the tag of the table. -/
theorem doJavaToNativeCallHandler_eq (h : Host) (info : MethodCallInfo) (s : State) :
    doJavaToNativeCallHandler h info s =
      (returnTag h info (pushArguments h info s),
        { (pushArguments h info s) with
          result := returnResult h info (pushArguments h info s),
          trace := (pushArguments h info s).trace ++
            returnEvents h info (pushArguments h info s) }) := by
  unfold doJavaToNativeCallHandler
  by_cases hw : h.sizeofSizeT = 4 <;>
    cases hk : info.fReturnType <;>
    cases hn : h.native info.fForwardedSymbol (currentMode (pushArguments h info s))
      (pendingArgs (pushArguments h info s)) <;>
    simp [callCase_eq, dcCall, returnTag, returnResult, returnEvents, returnStore,
      returnCall, returnPlan, targetOutcome, hk, hn, hw]

/-- The operations a dispatch adds to the log. -/
theorem newEvents_dispatch (h : Host) (info : MethodCallInfo) (s : State) :
    newEvents s (doJavaToNativeCallHandler h info s).2 =
      preludeEvents info s ++ stepEvents (argSteps h info s) ++
        returnEvents h info (pushArguments h info s) := by
  apply newEvents_append
  rw [doJavaToNativeCallHandler_eq]
  simp [trace_pushArguments]

theorem pushesOf_returnEvents (h : Host) (info : MethodCallInfo) (s : State) :
    pushesOf (returnEvents h info s) = [] := by
  unfold returnEvents pushesOf
  cases returnCall h info s <;> cases returnStore h info s <;> simp

theorem pushesOf_preludeEvents (info : MethodCallInfo) (s : State) :
    pushesOf (preludeEvents info s) = [] := by
  unfold preludeEvents pushesOf
  cases s.vm <;> simp

theorem pushesOf_append (a b : List Event) : pushesOf (a ++ b) = pushesOf a ++ pushesOf b := by
  simp [pushesOf]

/-- The pushes a dispatch issues are exactly the pushes of its loop steps. -/
theorem pushesOf_dispatch (h : Host) (info : MethodCallInfo) (s : State) :
    pushesOf (newEvents s (doJavaToNativeCallHandler h info s).2) =
      (argSteps h info s).map Prod.snd := by
  rw [newEvents_dispatch]
  simp [pushesOf_append, pushesOf_preludeEvents, pushesOf_stepEvents, pushesOf_returnEvents]

theorem paramStep_snd (h : Host) (type : ValueType) (raw : Int) :
    (paramStep h type raw).map Prod.snd = specPush h type (specRead type raw) := by
  unfold paramStep
  cases specPush h type (specRead type raw) <;> rfl

theorem specPush_isSome (h : Host) (type : ValueType) (v : Int)
    (hs : isSupportedParam type = true) : (specPush h type v).isSome = true := by
  cases type <;> simp_all [isSupportedParam, specPush]
  split <;> rfl

theorem loopSteps_supported (h : Host) (slots : Nat → Int) (kinds : List ValueType) (pos : Nat)
    (hs : ∀ k ∈ kinds, isSupportedParam k = true) :
    (loopSteps h slots kinds pos).length = kinds.length ∧
      ∀ i (hi : i < kinds.length),
        ((loopSteps h slots kinds pos).map Prod.snd)[i]? =
          specPush h (kinds.get ⟨i, hi⟩) (specRead (kinds.get ⟨i, hi⟩) (slots (pos + i))) := by
  induction kinds generalizing pos with
  | nil => exact ⟨rfl, fun i hi => absurd hi (by simp)⟩
  | cons k ks ih =>
    have hk : isSupportedParam k = true := hs k (by simp)
    have hks : ∀ k ∈ ks, isSupportedParam k = true := fun x hx => hs x (by simp [hx])
    have hsome := specPush_isSome h k (specRead k (slots pos)) hk
    have hsnd := paramStep_snd h k (slots pos)
    cases hst : paramStep h k (slots pos) with
    | none => rw [hst] at hsnd; rw [← hsnd] at hsome; simp at hsome
    | some st =>
      rw [hst] at hsnd
      obtain ⟨hlen, hget⟩ := ih (pos + 1) hks
      refine ⟨by simp [loopSteps, hst, hlen], fun i hi => ?_⟩
      cases i with
      | zero => simpa [loopSteps, hst] using hsnd
      | succ j =>
        have hj : j < ks.length := by simpa using hi
        have := hget j hj
        simp only [loopSteps, hst, List.map_cons, List.getElem?_cons_succ, List.get_cons_succ]
        rw [this]
        simp [Nat.add_assoc, Nat.add_comm 1 j]

/-- Claim C1: for a descriptor whose parameter kinds are all supported, the
dispatch issues exactly `nParams` pushes, and the i-th push is the push the
kind-to-push mapping assigns to `fParamTypes[i]`, carrying the i-th typed
value of the stream (the slot after the two handles and the i earlier
values). -/
theorem C1_pushes_follow_descriptor (h : Host) (info : MethodCallInfo) (s : State)
    (hs : ∀ k ∈ info.fParamTypes, isSupportedParam k = true) :
    (pushesOf (newEvents s (doJavaToNativeCallHandler h info s).2)).length = info.nParams ∧
      ∀ i (hi : i < info.fParamTypes.length),
        (pushesOf (newEvents s (doJavaToNativeCallHandler h info s).2))[i]? =
          specPush h (info.fParamTypes.get ⟨i, hi⟩)
            (specRead (info.fParamTypes.get ⟨i, hi⟩) (s.args.slots (s.args.pos + 2 + i))) := by
  rw [pushesOf_dispatch]
  obtain ⟨hlen, hget⟩ := loopSteps_supported h s.args.slots info.fParamTypes (s.args.pos + 2) hs
  exact ⟨by simpa [argSteps, MethodCallInfo.nParams] using hlen, hget⟩

/-- Claim C2: with a null descriptor the handler answers the Void tag and
leaves the whole state as it was: the stream is not read, the engine is not
touched, nothing is logged, and the result slot is unchanged. -/
theorem C2_null_descriptor (h : Host) (callback : Nat) (s : State) :
    JavaToNativeCallHandler h callback none s = (h.sig.DC_SIGCHAR_VOID, s) ∧
      (JavaToNativeCallHandler h callback none s).2.args.pos = s.args.pos ∧
      newEvents s (JavaToNativeCallHandler h callback none s).2 = [] ∧
      (JavaToNativeCallHandler h callback none s).2.vm = s.vm ∧
      (JavaToNativeCallHandler h callback none s).2.result = s.result := by
  simp [JavaToNativeCallHandler, newEvents]

/-- Witness of C1 on a host with 8-byte words: three supported parameters,
three pushes. -/
theorem C1_pushes_follow_descriptor_witness :
    (pushesOf (newEvents (freshState [70, 71, 5, 6, 7])
      (doJavaToNativeCallHandler (hostLP64 (constTarget 0))
        (descriptor [ValueType.eIntValue, ValueType.eSizeTValue, ValueType.eShortValue]
          ValueType.eVoidValue)
        (freshState [70, 71, 5, 6, 7])).2)).length = 3 :=
  (C1_pushes_follow_descriptor (hostLP64 (constTarget 0))
    (descriptor [ValueType.eIntValue, ValueType.eSizeTValue, ValueType.eShortValue]
      ValueType.eVoidValue)
    (freshState [70, 71, 5, 6, 7]) (by decide)).1

/-! ### What a dispatch logs and leaves behind -/

theorem callsOf_append (a b : List Event) : callsOf (a ++ b) = callsOf a ++ callsOf b := by
  simp [callsOf]

theorem storesOf_append (a b : List Event) : storesOf (a ++ b) = storesOf a ++ storesOf b := by
  simp [storesOf]

theorem throwsOf_append (a b : List Event) : throwsOf (a ++ b) = throwsOf a ++ throwsOf b := by
  simp [throwsOf]

theorem callsOf_preludeEvents (info : MethodCallInfo) (s : State) :
    callsOf (preludeEvents info s) = [] := by
  unfold preludeEvents callsOf
  cases s.vm <;> simp

theorem storesOf_preludeEvents (info : MethodCallInfo) (s : State) :
    storesOf (preludeEvents info s) = [] := by
  unfold preludeEvents storesOf
  cases s.vm <;> simp

theorem callsOf_returnEvents (h : Host) (info : MethodCallInfo) (s : State) :
    callsOf (returnEvents h info s) = (returnCall h info s).toList := by
  unfold returnEvents callsOf
  cases returnCall h info s <;> cases returnStore h info s <;> simp

theorem storesOf_returnEvents (h : Host) (info : MethodCallInfo) (s : State) :
    storesOf (returnEvents h info s) = (returnStore h info s).toList := by
  unfold returnEvents storesOf
  cases returnCall h info s <;> cases returnStore h info s <;> simp

/-- The calls a dispatch issues: the call of the return switch, if any. -/
theorem callsOf_dispatch (h : Host) (info : MethodCallInfo) (s : State) :
    callsOf (newEvents s (doJavaToNativeCallHandler h info s).2) =
      (returnCall h info (pushArguments h info s)).toList := by
  rw [newEvents_dispatch]
  simp [callsOf_append, callsOf_preludeEvents, callsOf_stepEvents, callsOf_returnEvents]

/-- The assignments a dispatch makes: that of the return switch, if any. -/
theorem storesOf_dispatch (h : Host) (info : MethodCallInfo) (s : State) :
    storesOf (newEvents s (doJavaToNativeCallHandler h info s).2) =
      (returnStore h info (pushArguments h info s)).toList := by
  rw [newEvents_dispatch]
  simp [storesOf_append, storesOf_preludeEvents, storesOf_stepEvents, storesOf_returnEvents]

theorem tag_dispatch (h : Host) (info : MethodCallInfo) (s : State) :
    (doJavaToNativeCallHandler h info s).1 = returnTag h info (pushArguments h info s) := by
  rw [doJavaToNativeCallHandler_eq]

theorem result_dispatch (h : Host) (info : MethodCallInfo) (s : State) :
    (doJavaToNativeCallHandler h info s).2.result =
      match returnStore h info (pushArguments h info s) with
      | some (field, v) => s.result.set field v
      | none => s.result := by
  rw [doJavaToNativeCallHandler_eq]
  simp [returnResult, result_pushArguments]

/-- The arguments left pending by a dispatch are the pushes it issued. -/
theorem pendingArgs_dispatch (h : Host) (info : MethodCallInfo) (s : State) :
    pendingArgs (doJavaToNativeCallHandler h info s).2 =
      pushesOf (newEvents s (doJavaToNativeCallHandler h info s).2) := by
  rw [pushesOf_dispatch, doJavaToNativeCallHandler_eq, ← pendingArgs_pushArguments]
  rfl

theorem currentMode_dispatch (h : Host) (info : MethodCallInfo) (s : State) :
    currentMode (doJavaToNativeCallHandler h info s).2 = info.fDCMode := by
  rw [doJavaToNativeCallHandler_eq, ← currentMode_pushArguments h info s]
  rfl

/-- The outcome of the target in a dispatch, in terms of what the dispatch
pushed. -/
theorem targetOutcome_pushArguments (h : Host) (info : MethodCallInfo) (s : State) :
    targetOutcome h info (pushArguments h info s) =
      h.native info.fForwardedSymbol info.fDCMode
        (pushesOf (newEvents s (doJavaToNativeCallHandler h info s).2)) := by
  rw [targetOutcome, currentMode_pushArguments, pendingArgs_pushArguments, pushesOf_dispatch]

/-- What a dispatch does after the loop, in terms of the pushes it issued:
the call, the tag, the assignment and the result slot. -/
theorem dispatch_summary (h : Host) (info : MethodCallInfo) (s : State) :
    callsOf (newEvents s (doJavaToNativeCallHandler h info s).2) =
        ((returnPlan h info.fReturnType).map (fun plan => (plan.1, info.fForwardedSymbol,
          pushesOf (newEvents s (doJavaToNativeCallHandler h info s).2)))).toList ∧
      (doJavaToNativeCallHandler h info s).1 =
        (match returnPlan h info.fReturnType with
          | none => some h.sig.DC_SIGCHAR_VOID
          | some (_, _, tag) =>
            (h.native info.fForwardedSymbol info.fDCMode
              (pushesOf (newEvents s (doJavaToNativeCallHandler h info s).2))).map
                (fun _ => tag)) ∧
      storesOf (newEvents s (doJavaToNativeCallHandler h info s).2) =
        (match returnPlan h info.fReturnType with
          | some (op, some field, _) =>
            (h.native info.fForwardedSymbol info.fDCMode
              (pushesOf (newEvents s (doJavaToNativeCallHandler h info s).2))).map
                (fun raw => (field, callResult h op raw))
          | _ => none).toList ∧
      (doJavaToNativeCallHandler h info s).2.result =
        (match (match returnPlan h info.fReturnType with
          | some (op, some field, _) =>
            (h.native info.fForwardedSymbol info.fDCMode
              (pushesOf (newEvents s (doJavaToNativeCallHandler h info s).2))).map
                (fun raw => (field, callResult h op raw))
          | _ => none) with
          | some (field, v) => s.result.set field v
          | none => s.result) := by
  refine ⟨?_, ?_, ?_, ?_⟩
  · rw [callsOf_dispatch, returnCall, pendingArgs_pushArguments, pushesOf_dispatch]
  · rw [tag_dispatch, returnTag, targetOutcome_pushArguments]
  · rw [storesOf_dispatch, returnStore, targetOutcome_pushArguments]
  · rw [result_dispatch, returnStore, targetOutcome_pushArguments]

/-! ### Return kinds -/

/-- For return kinds Int32, Int16, Float32, Float64 and Byte the dispatch
calls through the call operation of the kind, and when the target returns
it assigns the member of the kind and answers the tag of the kind. -/
theorem direct_return_kinds (h : Host) (info : MethodCallInfo) (s : State)
    (hk : info.fReturnType ∈ [ValueType.eIntValue, ValueType.eShortValue,
      ValueType.eFloatValue, ValueType.eDoubleValue, ValueType.eByteValue]) :
    ∃ op field tag, specDirectReturn h info.fReturnType = some (op, field, tag) ∧
      callsOf (newEvents s (doJavaToNativeCallHandler h info s).2) =
        [(op, info.fForwardedSymbol,
          pushesOf (newEvents s (doJavaToNativeCallHandler h info s).2))] ∧
      ∀ raw, h.native info.fForwardedSymbol info.fDCMode
          (pushesOf (newEvents s (doJavaToNativeCallHandler h info s).2)) = some raw →
        (doJavaToNativeCallHandler h info s).1 = some tag ∧
        storesOf (newEvents s (doJavaToNativeCallHandler h info s).2) =
          [(field, callResult h op raw)] ∧
        (doJavaToNativeCallHandler h info s).2.result = s.result.set field (callResult h op raw) := by
  obtain ⟨hc, ht, hst, hr⟩ := dispatch_summary h info s
  rw [hc, ht, hst, hr]
  simp only [List.mem_cons, List.mem_singleton, List.not_mem_nil, or_false] at hk
  rcases hk with hk | hk | hk | hk | hk <;>
    rw [hk] <;>
    refine ⟨_, _, _, rfl, rfl, fun raw hraw => ?_⟩ <;>
    simp [returnPlan, hraw]

/-- For return kind Int64 the dispatch calls through `dcCallLong`, the call
operation of the native `long`, whatever the host. -/
theorem int64_return_call (h : Host) (info : MethodCallInfo) (s : State)
    (hk : info.fReturnType = ValueType.eLongValue) :
    callsOf (newEvents s (doJavaToNativeCallHandler h info s).2) =
      [(DCCall.dcCallLong, info.fForwardedSymbol,
        pushesOf (newEvents s (doJavaToNativeCallHandler h info s).2))] := by
  rw [(dispatch_summary h info s).1, hk]
  rfl

/-- Claim C3, at the failing input: on a host whose `long` is 4 bytes wide, a
descriptor with return kind Int64 and a target returning 2^32 + 5.  The
specification asks for the 64-bit call; the dispatch issues `dcCallLong`,
answers the Int64 tag, and leaves 5 in member `l`, where the 64-bit call
returns 2^32 + 5. -/
theorem C3_int64_return_truncated :
    (specDirectReturn (hostILP32 (constTarget 4294967301)) ValueType.eLongValue).map Prod.fst =
        some DCCall.dcCallLongLong ∧
      callsOf (newEvents (freshState [])
        (doJavaToNativeCallHandler (hostILP32 (constTarget 4294967301))
          (descriptor [] ValueType.eLongValue) (freshState [])).2) =
        [(DCCall.dcCallLong, 1, [])] ∧
      (doJavaToNativeCallHandler (hostILP32 (constTarget 4294967301))
        (descriptor [] ValueType.eLongValue) (freshState [])).1 = some 108 ∧
      (doJavaToNativeCallHandler (hostILP32 (constTarget 4294967301))
        (descriptor [] ValueType.eLongValue) (freshState [])).2.result.l = 5 ∧
      callResult (hostILP32 (constTarget 4294967301)) DCCall.dcCallLongLong 4294967301 =
        4294967301 := by
  decide

theorem pushArguments_returnType (h : Host) (info : MethodCallInfo) (s : State)
    (kind : ValueType) :
    pushArguments h { info with fReturnType := kind } s = pushArguments h info s := rfl

/-- The pushes of a dispatch do not depend on the return kind. -/
theorem pushesOf_dispatch_returnType (h : Host) (info : MethodCallInfo) (s : State)
    (kind : ValueType) :
    pushesOf (newEvents s (doJavaToNativeCallHandler h { info with fReturnType := kind } s).2) =
      pushesOf (newEvents s (doJavaToNativeCallHandler h info s).2) := by
  rw [pushesOf_dispatch, pushesOf_dispatch]
  rfl

/-- Claim C4, counterexample: with return kind WideChar the dispatch issues
no call at all, where the same descriptor with return kind Void issues one
`dcCallVoid` on the target. -/
theorem C4_wchar_return_issues_no_call :
    callsOf (newEvents (freshState [70, 71, 5])
        (doJavaToNativeCallHandler (hostLP64 (constTarget 7))
          (descriptor [ValueType.eIntValue] ValueType.eWCharValue)
          (freshState [70, 71, 5])).2) = [] ∧
      callsOf (newEvents (freshState [70, 71, 5])
        (doJavaToNativeCallHandler (hostLP64 (constTarget 7))
          (descriptor [ValueType.eIntValue] ValueType.eVoidValue)
          (freshState [70, 71, 5])).2) = [(DCCall.dcCallVoid, 1, [DCArg.dcArgInt 5])] := by
  decide

/-- Claim C4, amended: for return kind WideChar or an unrecognised value the
dispatch runs lines 11 to 54 as for any kind and answers the Void tag, but
issues no call and assigns nothing: the target is not invoked and the result
slot is unchanged.  The dispatch of the same descriptor with return kind
Void differs from it by exactly the one `dcCallVoid` on the target (and by
the fault that call may raise). -/
theorem C4_unrecognised_return_kind (h : Host) (info : MethodCallInfo) (s : State)
    (hk : info.fReturnType = ValueType.eWCharValue ∨
      ∃ code, info.fReturnType = ValueType.unrecognised code) :
    doJavaToNativeCallHandler h info s = (some h.sig.DC_SIGCHAR_VOID, pushArguments h info s) ∧
      callsOf (newEvents s (doJavaToNativeCallHandler h info s).2) = [] ∧
      storesOf (newEvents s (doJavaToNativeCallHandler h info s).2) = [] ∧
      (doJavaToNativeCallHandler h info s).2.result = s.result ∧
      doJavaToNativeCallHandler h { info with fReturnType := ValueType.eVoidValue } s =
        ((h.native info.fForwardedSymbol info.fDCMode
            (pushesOf (newEvents s (doJavaToNativeCallHandler h info s).2))).map
              (fun _ => h.sig.DC_SIGCHAR_VOID),
          { (doJavaToNativeCallHandler h info s).2 with
            trace := (doJavaToNativeCallHandler h info s).2.trace ++
              [Event.call DCCall.dcCallVoid info.fForwardedSymbol
                (pushesOf (newEvents s (doJavaToNativeCallHandler h info s).2))] }) := by
  have hplan : returnPlan h info.fReturnType = none := by
    rcases hk with hk | ⟨code, hk⟩ <;> rw [hk] <;> rfl
  have hd : doJavaToNativeCallHandler h info s =
      (some h.sig.DC_SIGCHAR_VOID, pushArguments h info s) := by
    rw [doJavaToNativeCallHandler_eq]
    simp [returnTag, returnResult, returnEvents, returnStore, returnCall, hplan]
  obtain ⟨hc, _, hst, hr⟩ := dispatch_summary h info s
  refine ⟨hd, ?_, ?_, ?_, ?_⟩
  · rw [hc, hplan]; rfl
  · rw [hst, hplan]; rfl
  · rw [hr, hplan]
  · rw [← pendingArgs_dispatch, hd, doJavaToNativeCallHandler_eq, pushArguments_returnType]
    have hm := currentMode_pushArguments h info s
    cases hn : h.native info.fForwardedSymbol info.fDCMode
        (pendingArgs (pushArguments h info s)) <;>
      simp [returnTag, returnResult, returnEvents, returnStore, returnCall, returnPlan,
        targetOutcome, hm, hn]

/-- Witness of C4 amended: a WideChar return kind on a host with 8-byte words. -/
theorem C4_unrecognised_return_kind_witness :
    doJavaToNativeCallHandler (hostLP64 (constTarget 7))
        (descriptor [ValueType.eIntValue] ValueType.eWCharValue) (freshState [70, 71, 5]) =
      (some 118, pushArguments (hostLP64 (constTarget 7))
        (descriptor [ValueType.eIntValue] ValueType.eWCharValue) (freshState [70, 71, 5])) :=
  (C4_unrecognised_return_kind (hostLP64 (constTarget 7))
    (descriptor [ValueType.eIntValue] ValueType.eWCharValue) (freshState [70, 71, 5])
    (Or.inl rfl)).1

/-! ### The fault barrier -/

/-- The handler on a non-null descriptor: the answer of the dispatch, or on
a fault the literal 0 after signalling the exception. -/
theorem JavaToNativeCallHandler_some (h : Host) (callback : Nat) (info : MethodCallInfo)
    (s : State) :
    JavaToNativeCallHandler h callback (some info) s =
      match (doJavaToNativeCallHandler h info s).1 with
      | some v => (v, (doJavaToNativeCallHandler h info s).2)
      | none =>
        (0, { (doJavaToNativeCallHandler h info s).2 with
              trace := (doJavaToNativeCallHandler h info s).2.trace ++
                [Event.throwException info.fEnv] }) := by
  unfold JavaToNativeCallHandler
  rcases hd : doJavaToNativeCallHandler h info s with ⟨_ | v, s1⟩ <;> simp [END_TRY_RET, hd]

/-- Whenever the dispatch faults, the handler answers 0 and logs one
exception against the environment of the descriptor. -/
theorem handler_fault_answer (h : Host) (callback : Nat) (info : MethodCallInfo) (s : State)
    (hf : (doJavaToNativeCallHandler h info s).1 = none) :
    (JavaToNativeCallHandler h callback (some info) s).1 = 0 ∧
      (JavaToNativeCallHandler h callback (some info) s).2.trace =
        (doJavaToNativeCallHandler h info s).2.trace ++ [Event.throwException info.fEnv] := by
  rw [JavaToNativeCallHandler_some, hf]
  exact ⟨rfl, rfl⟩

/-- Claim C5, at the failing input: a non-null descriptor whose target
raises a native fault.  The handler signals one exception against the
environment of the descriptor, as claimed, but answers the literal 0 passed
to `END_TRY_RET`, where the null-descriptor path and the Void return kind
answer `DC_SIGCHAR_VOID` (118); 0 is no tag of the table. -/
theorem C5_fault_answer_is_not_a_tag :
    (JavaToNativeCallHandler (hostLP64 faultingTarget) 0
        (some (descriptor [] ValueType.eVoidValue)) (freshState [])).1 = 0 ∧
      throwsOf (newEvents (freshState [])
        (JavaToNativeCallHandler (hostLP64 faultingTarget) 0
          (some (descriptor [] ValueType.eVoidValue)) (freshState [])).2) = [9] ∧
      (JavaToNativeCallHandler (hostLP64 faultingTarget) 0 none (freshState [])).1 = 118 ∧
      (JavaToNativeCallHandler (hostLP64 (constTarget 0)) 0
        (some (descriptor [] ValueType.eVoidValue)) (freshState [])).1 = 118 ∧
      (0 : Int) ∉ [dyncallSigChars.DC_SIGCHAR_VOID, dyncallSigChars.DC_SIGCHAR_INT,
        dyncallSigChars.DC_SIGCHAR_LONGLONG, dyncallSigChars.DC_SIGCHAR_SHORT,
        dyncallSigChars.DC_SIGCHAR_FLOAT, dyncallSigChars.DC_SIGCHAR_DOUBLE,
        dyncallSigChars.DC_SIGCHAR_CHAR, dyncallSigChars.DC_SIGCHAR_LONG] := by
  decide

/-! ### Return kinds Long and SizeT -/

/-- Claim C6, counterexample: on a host where `size_t` is 8 bytes and `long`
4 bytes wide, return kind Long and a target returning 2^32 + 5.  The call
issued is `dcCallLong`, neither the 64-bit nor the 32-bit call operation,
and member `l` receives 5 where the 64-bit call returns 2^32 + 5. -/
theorem C6_long_return_is_not_the_64bit_call :
    (hostLLP64 (constTarget 4294967301)).sizeofSizeT = 8 ∧
      callsOf (newEvents (freshState [])
        (doJavaToNativeCallHandler (hostLLP64 (constTarget 4294967301))
          (descriptor [] ValueType.eCLongValue) (freshState [])).2) =
        [(DCCall.dcCallLong, 1, [])] ∧
      (doJavaToNativeCallHandler (hostLLP64 (constTarget 4294967301))
        (descriptor [] ValueType.eCLongValue) (freshState [])).2.result.l = 5 ∧
      callResult (hostLLP64 (constTarget 4294967301)) DCCall.dcCallLongLong 4294967301 =
        4294967301 := by
  decide

/-- Claim C6, amended: for return kind SizeT the dispatch calls through
`dcCallLongLong` when `size_t` is 8 bytes wide and through `dcCallInt` when
it is 4 bytes wide; for return kind Long it calls through `dcCallLong`, whose
value is that of the 64-bit call when `long` is 8 bytes wide and that of the
32-bit call when it is 4 bytes wide.  For both kinds, when the target
returns, the value goes to member `l` of the result slot and the answer is
`DC_SIGCHAR_LONG`; return kind Int64 answers `DC_SIGCHAR_LONGLONG`, which is
another code in the tag table of the engine. -/
theorem C6_long_and_sizeT_return (h : Host) (info : MethodCallInfo) (s : State)
    (hk : info.fReturnType = ValueType.eCLongValue ∨ info.fReturnType = ValueType.eSizeTValue) :
    callsOf (newEvents s (doJavaToNativeCallHandler h info s).2) =
        [(wordReturnCall h info.fReturnType, info.fForwardedSymbol,
          pushesOf (newEvents s (doJavaToNativeCallHandler h info s).2))] ∧
      (doJavaToNativeCallHandler h info s).1 =
        (h.native info.fForwardedSymbol info.fDCMode
          (pushesOf (newEvents s (doJavaToNativeCallHandler h info s).2))).map
            (fun _ => h.sig.DC_SIGCHAR_LONG) ∧
      storesOf (newEvents s (doJavaToNativeCallHandler h info s).2) =
        ((h.native info.fForwardedSymbol info.fDCMode
          (pushesOf (newEvents s (doJavaToNativeCallHandler h info s).2))).map
            (fun raw => (Field.l, callResult h (wordReturnCall h info.fReturnType) raw))).toList ∧
      (doJavaToNativeCallHandler h info s).2.result =
        ((h.native info.fForwardedSymbol info.fDCMode
          (pushesOf (newEvents s (doJavaToNativeCallHandler h info s).2))).map
            (fun raw => s.result.set Field.l
              (callResult h (wordReturnCall h info.fReturnType) raw))).getD s.result ∧
      (h.sizeofSizeT = 8 → wordReturnCall h ValueType.eSizeTValue = DCCall.dcCallLongLong) ∧
      (h.sizeofSizeT = 4 → wordReturnCall h ValueType.eSizeTValue = DCCall.dcCallInt) ∧
      wordReturnCall h ValueType.eCLongValue = DCCall.dcCallLong ∧
      (h.sizeofLong = 8 → callResult h DCCall.dcCallLong = callResult h DCCall.dcCallLongLong) ∧
      (h.sizeofLong = 4 → callResult h DCCall.dcCallLong = callResult h DCCall.dcCallInt) ∧
      (doJavaToNativeCallHandler h { info with fReturnType := ValueType.eLongValue } s).1 =
        (h.native info.fForwardedSymbol info.fDCMode
          (pushesOf (newEvents s (doJavaToNativeCallHandler h info s).2))).map
            (fun _ => h.sig.DC_SIGCHAR_LONGLONG) ∧
      dyncallSigChars.DC_SIGCHAR_LONG ≠ dyncallSigChars.DC_SIGCHAR_LONGLONG := by
  obtain ⟨hc, ht, hst, hr⟩ := dispatch_summary h info s
  obtain ⟨_, ht64, _, _⟩ := dispatch_summary h { info with fReturnType := ValueType.eLongValue } s
  rw [pushesOf_dispatch_returnType] at ht64
  rw [hc, ht, hst, hr, ht64]
  refine ⟨?_, ?_, ?_, ?_, ?_, ?_, ?_, ?_, ?_, ?_, by decide⟩
  · rcases hk with hk | hk <;> rw [hk] <;> simp [returnPlan, wordReturnCall]
  · rcases hk with hk | hk <;> rw [hk] <;> simp [returnPlan]
  · rcases hk with hk | hk <;> rw [hk] <;> simp [returnPlan, wordReturnCall]
  · rcases hk with hk | hk <;> rw [hk] <;>
      cases h.native info.fForwardedSymbol info.fDCMode
        (pushesOf (newEvents s (doJavaToNativeCallHandler h info s).2)) <;>
      simp [returnPlan, wordReturnCall]
  · intro hw; simp [wordReturnCall, hw]
  · intro hw; simp [wordReturnCall, hw]
  · simp [wordReturnCall]
  · intro hw; funext raw; simp [callResult, hw]
  · intro hw; funext raw; simp [callResult, hw]
  · simp [returnPlan]

/-- Witness of C6 amended: return kind SizeT on a host with 8-byte words. -/
theorem C6_long_and_sizeT_return_witness :
    callsOf (newEvents (freshState [])
        (doJavaToNativeCallHandler (hostLP64 (constTarget 4294967301))
          (descriptor [] ValueType.eSizeTValue) (freshState [])).2) =
      [(wordReturnCall (hostLP64 (constTarget 4294967301)) ValueType.eSizeTValue, 1,
        pushesOf (newEvents (freshState [])
          (doJavaToNativeCallHandler (hostLP64 (constTarget 4294967301))
            (descriptor [] ValueType.eSizeTValue) (freshState [])).2))] :=
  (C6_long_and_sizeT_return (hostLP64 (constTarget 4294967301))
    (descriptor [] ValueType.eSizeTValue) (freshState []) (Or.inr rfl)).1

/-! ### Narrowing -/

theorem toSigned32_mod (v : Int) : toSigned 32 v % 2 ^ 32 = v % 2 ^ 32 := by
  unfold toSigned
  norm_num
  split_ifs <;> omega

theorem toSigned32_range (v : Int) : -2 ^ 31 ≤ toSigned 32 v ∧ toSigned 32 v < 2 ^ 31 := by
  unfold toSigned
  norm_num
  split_ifs <;> omega

theorem toSigned32_of_fits (v : Int) (hlo : -2 ^ 31 ≤ v) (hhi : v < 2 ^ 31) :
    toSigned 32 v = v := by
  unfold toSigned
  norm_num at hlo hhi ⊢
  split_ifs <;> omega

theorem toSigned64_range (v : Int) : -2 ^ 63 ≤ toSigned 64 v ∧ toSigned 64 v < 2 ^ 63 := by
  unfold toSigned
  norm_num
  split_ifs <;> omega

theorem pushParams_append (h : Host) (pre post : List ValueType) (s : State) :
    pushParams h (pre ++ post) s = pushParams h post (pushParams h pre s) := by
  induction pre generalizing s with
  | nil => rfl
  | cons k ks ih => simp [pushParams, ih]

/-- Claim C7: the turn of the parameter loop for a SizeT parameter, in any
state.  With v the 64-bit value read from the stream, the turn is one
`dcbArgLongLong` read and one push: `dcArgInt` of v narrowed to 32 bits when
`size_t` is 4 bytes wide, `dcArgLongLong` of v otherwise (8 bytes).  The
narrowed value has the low 32 bits of v and is a 32-bit `int`; it equals v
whenever v fits in 32 bits, and v always fits the 64-bit push.  Every SizeT
parameter of a descriptor is handled by this turn. -/
theorem C7_sizeT_parameter_push (h : Host) (s : State) :
    newEvents s (pushParam h ValueType.eSizeTValue s) =
        [Event.read DCBArg.dcbArgLongLong,
          Event.push (if h.sizeofSizeT = 4
            then DCArg.dcArgInt (toSigned 32 (toSigned 64 (s.args.slots s.args.pos)))
            else DCArg.dcArgLongLong (toSigned 64 (s.args.slots s.args.pos)))] ∧
      pendingArgs (pushParam h ValueType.eSizeTValue s) =
        (s.vm.map (fun vm => vm.args ++
          [if h.sizeofSizeT = 4
            then DCArg.dcArgInt (toSigned 32 (toSigned 64 (s.args.slots s.args.pos)))
            else DCArg.dcArgLongLong (toSigned 64 (s.args.slots s.args.pos))])).getD [] ∧
      toSigned 32 (toSigned 64 (s.args.slots s.args.pos)) % 2 ^ 32 =
        toSigned 64 (s.args.slots s.args.pos) % 2 ^ 32 ∧
      (-2 ^ 31 ≤ toSigned 32 (toSigned 64 (s.args.slots s.args.pos)) ∧
        toSigned 32 (toSigned 64 (s.args.slots s.args.pos)) < 2 ^ 31) ∧
      (-2 ^ 31 ≤ toSigned 64 (s.args.slots s.args.pos) ∧
          toSigned 64 (s.args.slots s.args.pos) < 2 ^ 31 →
        toSigned 32 (toSigned 64 (s.args.slots s.args.pos)) =
          toSigned 64 (s.args.slots s.args.pos)) ∧
      (-2 ^ 63 ≤ toSigned 64 (s.args.slots s.args.pos) ∧
        toSigned 64 (s.args.slots s.args.pos) < 2 ^ 63) ∧
      ∀ (pre post : List ValueType) (s0 : State),
        pushParams h (pre ++ ValueType.eSizeTValue :: post) s0 =
          pushParams h post (pushParam h ValueType.eSizeTValue (pushParams h pre s0)) := by
  refine ⟨?_, ?_, toSigned32_mod _, toSigned32_range _, fun hv => toSigned32_of_fits _ hv.1 hv.2,
    toSigned64_range _, fun pre post s0 => ?_⟩
  · apply newEvents_append
    by_cases hw : h.sizeofSizeT = 4 <;>
      simp [pushParam, dcArg, dcbArgLongLong, dcbArg, hw]
  · cases hvm : s.vm <;> by_cases hw : h.sizeofSizeT = 4 <;>
      simp [pushParam, dcArg, dcbArgLongLong, dcbArg, pendingArgs, hw, hvm]
  · rw [pushParams_append]; rfl

/-! ### Two dispatches in a row -/

theorem paramStep_isSome (h : Host) (type : ValueType) (raw : Int) :
    (paramStep h type raw).isSome = isSupportedParam type := by
  have hsnd := paramStep_snd h type raw
  cases type <;> simp_all [isSupportedParam, specPush] <;>
    cases hst : paramStep h _ raw <;> simp_all
  split at hsnd <;> simp at hsnd

/-- The loop makes one step per parameter of a supported kind. -/
theorem loopSteps_length (h : Host) (slots : Nat → Int) (kinds : List ValueType) (pos : Nat) :
    (loopSteps h slots kinds pos).length = (kinds.filter isSupportedParam).length := by
  induction kinds generalizing pos with
  | nil => rfl
  | cons k ks ih =>
    have hk := paramStep_isSome h k (slots pos)
    cases hst : paramStep h k (slots pos) with
    | none =>
      rw [hst] at hk
      have hk2 : isSupportedParam k = false := by simpa using hk.symm
      simp [loopSteps, hst, hk2, ih]
    | some st =>
      rw [hst] at hk
      have hk2 : isSupportedParam k = true := by simpa using hk.symm
      simp [loopSteps, hst, hk2, ih]

theorem trace_dispatch (h : Host) (info : MethodCallInfo) (s : State) :
    (doJavaToNativeCallHandler h info s).2.trace =
      s.trace ++ (preludeEvents info s ++ stepEvents (argSteps h info s) ++
        returnEvents h info (pushArguments h info s)) := by
  rw [doJavaToNativeCallHandler_eq]
  simp [trace_pushArguments]

/-- The operations the handler adds to the log on a non-null descriptor:
those of the dispatch, then the exception when the dispatch faulted. -/
theorem newEvents_handler (h : Host) (callback : Nat) (info : MethodCallInfo) (s : State) :
    newEvents s (JavaToNativeCallHandler h callback (some info) s).2 =
      newEvents s (doJavaToNativeCallHandler h info s).2 ++
        (match (doJavaToNativeCallHandler h info s).1 with
          | some _ => []
          | none => [Event.throwException info.fEnv]) := by
  rw [JavaToNativeCallHandler_some, newEvents_dispatch]
  cases (doJavaToNativeCallHandler h info s).1 with
  | some v => simpa using newEvents_dispatch h info s
  | none =>
    apply newEvents_append
    simp [trace_dispatch]

theorem pushesOf_handler (h : Host) (callback : Nat) (info : MethodCallInfo) (s : State) :
    pushesOf (newEvents s (JavaToNativeCallHandler h callback (some info) s).2) =
      pushesOf (newEvents s (doJavaToNativeCallHandler h info s).2) := by
  rw [newEvents_handler, pushesOf_append]
  cases (doJavaToNativeCallHandler h info s).1 <;> simp [pushesOf]

theorem callsOf_handler (h : Host) (callback : Nat) (info : MethodCallInfo) (s : State) :
    callsOf (newEvents s (JavaToNativeCallHandler h callback (some info) s).2) =
      callsOf (newEvents s (doJavaToNativeCallHandler h info s).2) := by
  rw [newEvents_handler, callsOf_append]
  cases (doJavaToNativeCallHandler h info s).1 <;> simp [callsOf]

theorem pendingArgs_handler (h : Host) (callback : Nat) (info : MethodCallInfo) (s : State) :
    pendingArgs (JavaToNativeCallHandler h callback (some info) s).2 =
      pendingArgs (doJavaToNativeCallHandler h info s).2 := by
  rw [JavaToNativeCallHandler_some]
  cases (doJavaToNativeCallHandler h info s).1 <;> rfl

theorem result_handler (h : Host) (callback : Nat) (info : MethodCallInfo) (s : State) :
    (JavaToNativeCallHandler h callback (some info) s).2.result =
      (doJavaToNativeCallHandler h info s).2.result := by
  rw [JavaToNativeCallHandler_some]
  cases (doJavaToNativeCallHandler h info s).1 <;> rfl

/-- From any state of the thread, the arguments pending when the handler
calls the target, and those left pending afterwards, are the pushes of this
very call, one per parameter of a supported kind. -/
theorem handler_pending_args (h : Host) (callback : Nat) (info : MethodCallInfo) (s : State) :
    pendingArgs (JavaToNativeCallHandler h callback (some info) s).2 =
        pushesOf (newEvents s (JavaToNativeCallHandler h callback (some info) s).2) ∧
      (∀ c ∈ callsOf (newEvents s (JavaToNativeCallHandler h callback (some info) s).2),
        c.2.2 = pushesOf (newEvents s (JavaToNativeCallHandler h callback (some info) s).2)) ∧
      (pushesOf (newEvents s (JavaToNativeCallHandler h callback (some info) s).2)).length =
        (info.fParamTypes.filter isSupportedParam).length := by
  rw [pendingArgs_handler, pushesOf_handler, callsOf_handler]
  refine ⟨pendingArgs_dispatch h info s, ?_, ?_⟩
  · intro c hc
    rw [(dispatch_summary h info s).1] at hc
    cases hplan : returnPlan h info.fReturnType with
    | none => simp [hplan] at hc
    | some plan =>
      simp only [hplan, Option.map_some', Option.toList_some, List.mem_singleton] at hc
      rw [hc]
  · rw [pushesOf_dispatch, List.length_map, argSteps, loopSteps_length]

/-- Claim C8: two dispatches in a row on one thread, the first with any
descriptor `d1` (any return kind, faulting or not), the second with `d2` on a
new stream and result slot.  After the first, its own pushes are still
pending in the engine.  In the second, the arguments pending at every call
of the target, and those pending afterwards, are exactly the pushes made for
`d2`: one per supported parameter of `d2`, hence `nParams` of them when all
its kinds are supported. -/
theorem C8_no_argument_leak (h : Host) (cb1 cb2 : Nat) (d1 d2 : MethodCallInfo) (s : State)
    (args2 : DCArgs) (result2 : DCValue) :
    pendingArgs (JavaToNativeCallHandler h cb1 (some d1) s).2 =
        pushesOf (newEvents s (JavaToNativeCallHandler h cb1 (some d1) s).2) ∧
      (∀ c ∈ callsOf (newEvents
            (nextCall (JavaToNativeCallHandler h cb1 (some d1) s).2 args2 result2)
            (JavaToNativeCallHandler h cb2 (some d2)
              (nextCall (JavaToNativeCallHandler h cb1 (some d1) s).2 args2 result2)).2),
        c.2.2 = pushesOf (newEvents
            (nextCall (JavaToNativeCallHandler h cb1 (some d1) s).2 args2 result2)
            (JavaToNativeCallHandler h cb2 (some d2)
              (nextCall (JavaToNativeCallHandler h cb1 (some d1) s).2 args2 result2)).2)) ∧
      pendingArgs (JavaToNativeCallHandler h cb2 (some d2)
          (nextCall (JavaToNativeCallHandler h cb1 (some d1) s).2 args2 result2)).2 =
        pushesOf (newEvents
          (nextCall (JavaToNativeCallHandler h cb1 (some d1) s).2 args2 result2)
          (JavaToNativeCallHandler h cb2 (some d2)
            (nextCall (JavaToNativeCallHandler h cb1 (some d1) s).2 args2 result2)).2) ∧
      (pushesOf (newEvents
          (nextCall (JavaToNativeCallHandler h cb1 (some d1) s).2 args2 result2)
          (JavaToNativeCallHandler h cb2 (some d2)
            (nextCall (JavaToNativeCallHandler h cb1 (some d1) s).2 args2 result2)).2)).length =
        (d2.fParamTypes.filter isSupportedParam).length ∧
      ((∀ k ∈ d2.fParamTypes, isSupportedParam k = true) →
        (pushesOf (newEvents
          (nextCall (JavaToNativeCallHandler h cb1 (some d1) s).2 args2 result2)
          (JavaToNativeCallHandler h cb2 (some d2)
            (nextCall (JavaToNativeCallHandler h cb1 (some d1) s).2 args2 result2)).2)).length =
          d2.nParams) := by
  obtain ⟨hp1, _, _⟩ := handler_pending_args h cb1 d1 s
  obtain ⟨hp2, hc2, hl2⟩ := handler_pending_args h cb2 d2
    (nextCall (JavaToNativeCallHandler h cb1 (some d1) s).2 args2 result2)
  refine ⟨hp1, hc2, hp2, hl2, fun hs => ?_⟩
  rw [hl2, MethodCallInfo.nParams]
  congr 1
  exact List.filter_eq_self.mpr hs

/-! ### Round trip through an adding target -/

/-- Claim C9: a descriptor with parameter kinds [Int32, Int32] and return
kind Int32 whose target adds its two `int` arguments, on a stream whose two
typed values are a and b.  When a, b and a + b are 32-bit integers, the
handler answers the Int32 tag and leaves a + b in member `i` of the result
slot. -/
theorem C9_add_round_trip (h : Host) (callback : Nat) (info : MethodCallInfo) (s : State)
    (a b : Int)
    (hk : info.fParamTypes = [ValueType.eIntValue, ValueType.eIntValue])
    (hr : info.fReturnType = ValueType.eIntValue)
    (hadd : ∀ m x y, h.native info.fForwardedSymbol m [DCArg.dcArgInt x, DCArg.dcArgInt y] =
      some (x + y))
    (ha : -2 ^ 31 ≤ a ∧ a < 2 ^ 31) (hb : -2 ^ 31 ≤ b ∧ b < 2 ^ 31)
    (hab : -2 ^ 31 ≤ a + b ∧ a + b < 2 ^ 31)
    (hsa : s.args.slots (s.args.pos + 2) = a) (hsb : s.args.slots (s.args.pos + 3) = b) :
    (JavaToNativeCallHandler h callback (some info) s).1 = h.sig.DC_SIGCHAR_INT ∧
      (JavaToNativeCallHandler h callback (some info) s).2.result.i = a + b ∧
      (doJavaToNativeCallHandler h info s).1 = some h.sig.DC_SIGCHAR_INT ∧
      (doJavaToNativeCallHandler h info s).2.result.i = a + b := by
  have hpush : pushesOf (newEvents s (doJavaToNativeCallHandler h info s).2) =
      [DCArg.dcArgInt a, DCArg.dcArgInt b] := by
    rw [pushesOf_dispatch]
    simp [argSteps, hk, loopSteps, paramStep, specPush, specRead, hsa, hsb,
      toSigned32_of_fits a ha.1 ha.2, toSigned32_of_fits b hb.1 hb.2]
  obtain ⟨_, ht, _, hres⟩ := dispatch_summary h info s
  rw [hpush, hadd, hr] at ht hres
  have htag : (doJavaToNativeCallHandler h info s).1 = some h.sig.DC_SIGCHAR_INT := by
    rw [ht]; rfl
  have hval : (doJavaToNativeCallHandler h info s).2.result.i = a + b := by
    rw [hres]
    simp [returnPlan, DCValue.set, callResult, toSigned32_of_fits (a + b) hab.1 hab.2]
  refine ⟨?_, ?_, htag, hval⟩
  · rw [JavaToNativeCallHandler_some, htag]
  · rw [result_handler, hval]

/-- Witness of C9: 2 + 3 through the adding target on a host with 8-byte
words. -/
theorem C9_add_round_trip_witness :
    (JavaToNativeCallHandler (hostLP64 addTarget) 0
        (some (descriptor [ValueType.eIntValue, ValueType.eIntValue] ValueType.eIntValue))
        (freshState [70, 71, 2, 3])).1 = 105 ∧
      (JavaToNativeCallHandler (hostLP64 addTarget) 0
        (some (descriptor [ValueType.eIntValue, ValueType.eIntValue] ValueType.eIntValue))
        (freshState [70, 71, 2, 3])).2.result.i = 2 + 3 :=
  ⟨(C9_add_round_trip (hostLP64 addTarget) 0
      (descriptor [ValueType.eIntValue, ValueType.eIntValue] ValueType.eIntValue)
      (freshState [70, 71, 2, 3]) 2 3 rfl rfl (fun _ _ _ => rfl)
      (by decide) (by decide) (by decide) rfl rfl).1,
    (C9_add_round_trip (hostLP64 addTarget) 0
      (descriptor [ValueType.eIntValue, ValueType.eIntValue] ValueType.eIntValue)
      (freshState [70, 71, 2, 3]) 2 3 rfl rfl (fun _ _ _ => rfl)
      (by decide) (by decide) (by decide) rfl rfl).2.1⟩

/-! ### The result slot -/

theorem readsOf_append (a b : List Event) : readsOf (a ++ b) = readsOf a ++ readsOf b := by
  simp [readsOf]

theorem readsOf_preludeEvents (info : MethodCallInfo) (s : State) :
    readsOf (preludeEvents info s) = [DCBArg.dcbArgPointer, DCBArg.dcbArgPointer] := by
  unfold preludeEvents readsOf
  cases s.vm <;> simp

theorem readsOf_stepEvents (steps : List (DCBArg × DCArg)) :
    readsOf (stepEvents steps) = steps.map Prod.fst := by
  induction steps with
  | nil => rfl
  | cons st rest ih =>
    simp only [readsOf] at ih
    simp [stepEvents, readsOf, ih]

theorem readsOf_returnEvents (h : Host) (info : MethodCallInfo) (s : State) :
    readsOf (returnEvents h info s) = [] := by
  unfold returnEvents readsOf
  cases returnCall h info s <;> cases returnStore h info s <;> simp

theorem paramStep_fst (h : Host) (type : ValueType) (raw : Int) :
    (paramStep h type raw).map Prod.fst = paramRead type := by
  by_cases hw : h.sizeofSizeT = 4 <;>
    cases type <;> simp [paramStep, specPush, specRead, paramRead, hw]

/-- The reads of the loop: one per parameter whose kind has a `case`. -/
theorem loopSteps_reads (h : Host) (slots : Nat → Int) (kinds : List ValueType) (pos : Nat) :
    (loopSteps h slots kinds pos).map Prod.fst = kinds.filterMap paramRead := by
  induction kinds generalizing pos with
  | nil => rfl
  | cons k ks ih =>
    have hk := paramStep_fst h k (slots pos)
    cases hst : paramStep h k (slots pos) with
    | none =>
      rw [hst] at hk
      simp [loopSteps, hst, ← hk, ih]
    | some st =>
      rw [hst] at hk
      simp [loopSteps, hst, ← hk, ih]

theorem paramRead_isSome (type : ValueType) :
    (paramRead type).isSome = isSupportedParam type := by
  cases type <;> rfl

theorem filterMap_paramRead_length (kinds : List ValueType) :
    (kinds.filterMap paramRead).length = (kinds.filter isSupportedParam).length := by
  induction kinds with
  | nil => rfl
  | cons k ks ih =>
    have hk := paramRead_isSome k
    cases hr : paramRead k with
    | none =>
      rw [hr] at hk
      have hk2 : isSupportedParam k = false := by simpa using hk.symm
      simp [List.filterMap_cons, hr, hk2, ih]
    | some op =>
      rw [hr] at hk
      have hk2 : isSupportedParam k = true := by simpa using hk.symm
      simp [List.filterMap_cons, hr, hk2, ih]

/-- Where a dispatch leaves the stream: after the two handles and one slot
per parameter of a supported kind. -/
theorem pos_dispatch (h : Host) (info : MethodCallInfo) (s : State) :
    (doJavaToNativeCallHandler h info s).2.args.pos =
      s.args.pos + 2 + (info.fParamTypes.filter isSupportedParam).length := by
  rw [doJavaToNativeCallHandler_eq, pushArguments_eq]
  simp [argSteps, loopSteps_length]

/-- Claim C11, counterexample: a descriptor with the two parameter kinds
[WideChar, Int32].  The dispatch reads the two handles and one typed value,
three reads and not four, and leaves the stream after its first typed value,
not after its second. -/
theorem C11_unsupported_kind_is_not_read :
    (descriptor [ValueType.eWCharValue, ValueType.eIntValue] ValueType.eVoidValue).nParams = 2 ∧
      readsOf (newEvents (freshState [70, 71, 5, 6])
        (doJavaToNativeCallHandler (hostLP64 (constTarget 0))
          (descriptor [ValueType.eWCharValue, ValueType.eIntValue] ValueType.eVoidValue)
          (freshState [70, 71, 5, 6])).2) =
        [DCBArg.dcbArgPointer, DCBArg.dcbArgPointer, DCBArg.dcbArgInt] ∧
      (doJavaToNativeCallHandler (hostLP64 (constTarget 0))
        (descriptor [ValueType.eWCharValue, ValueType.eIntValue] ValueType.eVoidValue)
        (freshState [70, 71, 5, 6])).2.args.pos = 3 ∧
      pushesOf (newEvents (freshState [70, 71, 5, 6])
        (doJavaToNativeCallHandler (hostLP64 (constTarget 0))
          (descriptor [ValueType.eWCharValue, ValueType.eIntValue] ValueType.eVoidValue)
          (freshState [70, 71, 5, 6])).2) = [DCArg.dcArgInt 5] := by
  decide

/-- Claim C11, amended: a dispatch with a non-null descriptor reads one
environment handle, then one receiver handle, then one typed value for each
parameter of a supported kind, in descriptor order, by the read of that kind
(`dcbArgLongLong` for Long, SizeT and Int64); a parameter of any other kind
is not read.  The number of reads is 2 plus the number of parameters of a
supported kind, the stream is left that many slots further, and this is
`nParams + 2` when all kinds are supported. -/
theorem C11_reads_of_dispatch (h : Host) (info : MethodCallInfo) (s : State) :
    readsOf (newEvents s (doJavaToNativeCallHandler h info s).2) =
        DCBArg.dcbArgPointer :: DCBArg.dcbArgPointer :: info.fParamTypes.filterMap paramRead ∧
      (readsOf (newEvents s (doJavaToNativeCallHandler h info s).2)).length =
        (info.fParamTypes.filter isSupportedParam).length + 2 ∧
      (doJavaToNativeCallHandler h info s).2.args.pos =
        s.args.pos + 2 + (info.fParamTypes.filter isSupportedParam).length ∧
      (doJavaToNativeCallHandler h info s).2.args.slots = s.args.slots ∧
      ((∀ k ∈ info.fParamTypes, isSupportedParam k = true) →
        (readsOf (newEvents s (doJavaToNativeCallHandler h info s).2)).length =
            info.nParams + 2 ∧
          (doJavaToNativeCallHandler h info s).2.args.pos = s.args.pos + 2 + info.nParams) := by
  have hreads : readsOf (newEvents s (doJavaToNativeCallHandler h info s).2) =
      DCBArg.dcbArgPointer :: DCBArg.dcbArgPointer :: info.fParamTypes.filterMap paramRead := by
    rw [newEvents_dispatch]
    simp [readsOf_append, readsOf_preludeEvents, readsOf_stepEvents, readsOf_returnEvents,
      argSteps, loopSteps_reads]
  have hlen : (readsOf (newEvents s (doJavaToNativeCallHandler h info s).2)).length =
      (info.fParamTypes.filter isSupportedParam).length + 2 := by
    rw [hreads]
    simp [filterMap_paramRead_length]
  have hpos := pos_dispatch h info s
  refine ⟨hreads, hlen, hpos, ?_, fun hs => ?_⟩
  · rw [doJavaToNativeCallHandler_eq, pushArguments_eq]
  · have hall : info.fParamTypes.filter isSupportedParam = info.fParamTypes :=
      List.filter_eq_self.mpr hs
    rw [hlen, hpos, hall]
    exact ⟨rfl, rfl⟩

/-! ### Parameters of unsupported kinds -/

/-- The loop does on a list of kinds what it does on the supported ones
among them. -/
theorem loopSteps_filter (h : Host) (slots : Nat → Int) (kinds : List ValueType) (pos : Nat) :
    loopSteps h slots (kinds.filter isSupportedParam) pos = loopSteps h slots kinds pos := by
  induction kinds generalizing pos with
  | nil => rfl
  | cons k ks ih =>
    have hk := paramStep_isSome h k (slots pos)
    cases hst : paramStep h k (slots pos) with
    | none =>
      rw [hst] at hk
      have hk2 : isSupportedParam k = false := by simpa using hk.symm
      simp [loopSteps, hst, hk2, ih]
    | some st =>
      rw [hst] at hk
      have hk2 : isSupportedParam k = true := by simpa using hk.symm
      simp [loopSteps, hst, hk2, ih]

/-- A dispatch is the dispatch of the descriptor without its parameters of
unsupported kinds. -/
theorem dispatch_supportedOnly (h : Host) (info : MethodCallInfo) (s : State) :
    doJavaToNativeCallHandler h (supportedOnly info) s = doJavaToNativeCallHandler h info s := by
  have hp : pushArguments h (supportedOnly info) s = pushArguments h info s := by
    rw [pushArguments_eq, pushArguments_eq]
    simp [argSteps, supportedOnly, loopSteps_filter, preludeEvents]
  rw [doJavaToNativeCallHandler_eq, doJavaToNativeCallHandler_eq, hp]
  rfl

theorem returnPlan_isSome (h : Host) (kind : ValueType) :
    (returnPlan h kind).isSome = issuesCall kind := by
  cases kind <;> rfl

/-- Claim C12, counterexample: a descriptor with parameter kinds
[WideChar, Int32] and return kind WideChar.  The WideChar parameter causes
no push and the Int32 parameter is pushed, as claimed, but the target is not
invoked: the dispatch issues no call. -/
theorem C12_target_not_always_invoked :
    pushesOf (newEvents (freshState [70, 71, 5, 6])
        (doJavaToNativeCallHandler (hostLP64 (constTarget 0))
          (descriptor [ValueType.eWCharValue, ValueType.eIntValue] ValueType.eWCharValue)
          (freshState [70, 71, 5, 6])).2) = [DCArg.dcArgInt 5] ∧
      callsOf (newEvents (freshState [70, 71, 5, 6])
        (doJavaToNativeCallHandler (hostLP64 (constTarget 0))
          (descriptor [ValueType.eWCharValue, ValueType.eIntValue] ValueType.eWCharValue)
          (freshState [70, 71, 5, 6])).2) = [] := by
  decide

/-- Claim C12, amended: a parameter of a kind outside the supported set
causes no push and does not stop the loop.  The dispatch is that of the
descriptor without such parameters: its pushes are those of the parameters
of a supported kind, in descriptor order, on the successive typed values of
the stream; their number is the number of such parameters, fewer than
`nParams` when some kind is unsupported.  The target is then invoked, once
and on these pushes, exactly when the return kind is one of Int32, Int64,
Int16, Byte, Float32, Float64, Long, SizeT and Void. -/
theorem C12_unsupported_parameter_skipped (h : Host) (info : MethodCallInfo) (s : State) :
    doJavaToNativeCallHandler h info s = doJavaToNativeCallHandler h (supportedOnly info) s ∧
      (pushesOf (newEvents s (doJavaToNativeCallHandler h info s).2)).length =
        (info.fParamTypes.filter isSupportedParam).length ∧
      (∀ i (hi : i < (info.fParamTypes.filter isSupportedParam).length),
        (pushesOf (newEvents s (doJavaToNativeCallHandler h info s).2))[i]? =
          specPush h ((info.fParamTypes.filter isSupportedParam).get ⟨i, hi⟩)
            (specRead ((info.fParamTypes.filter isSupportedParam).get ⟨i, hi⟩)
              (s.args.slots (s.args.pos + 2 + i)))) ∧
      ((∃ k ∈ info.fParamTypes, isSupportedParam k = false) →
        (pushesOf (newEvents s (doJavaToNativeCallHandler h info s).2)).length <
          info.nParams) ∧
      (callsOf (newEvents s (doJavaToNativeCallHandler h info s).2)).length =
        (if issuesCall info.fReturnType = true then 1 else 0) ∧
      (∀ c ∈ callsOf (newEvents s (doJavaToNativeCallHandler h info s).2),
        c.2.1 = info.fForwardedSymbol ∧
          c.2.2 = pushesOf (newEvents s (doJavaToNativeCallHandler h info s).2)) := by
  have hlen : (pushesOf (newEvents s (doJavaToNativeCallHandler h info s).2)).length =
      (info.fParamTypes.filter isSupportedParam).length := by
    rw [pushesOf_dispatch, List.length_map, argSteps, loopSteps_length]
  have hsup : ∀ k ∈ info.fParamTypes.filter isSupportedParam, isSupportedParam k = true :=
    fun k hk => (List.mem_filter.mp hk).2
  refine ⟨(dispatch_supportedOnly h info s).symm, hlen, ?_, ?_, ?_, ?_⟩
  · rw [pushesOf_dispatch, argSteps, ← loopSteps_filter]
    exact (loopSteps_supported h s.args.slots _ (s.args.pos + 2) hsup).2
  · rintro ⟨k, hk, hkf⟩
    rw [hlen, MethodCallInfo.nParams]
    exact List.length_filter_lt_length_iff_exists.mpr ⟨k, hk, by simp [hkf]⟩
  · rw [(dispatch_summary h info s).1]
    have hplan := returnPlan_isSome h info.fReturnType
    cases hp : returnPlan h info.fReturnType <;> rw [hp] at hplan <;> simp [← hplan]
  · intro c hc
    rw [(dispatch_summary h info s).1] at hc
    cases hp : returnPlan h info.fReturnType with
    | none => simp [hp] at hc
    | some plan =>
      simp only [hp, Option.map_some', Option.toList_some, List.mem_singleton] at hc
      rw [hc]
      exact ⟨rfl, rfl⟩

/-! ### The engine of the thread -/

theorem createsOf_append (a b : List Event) :
    createsOf (a ++ b) = createsOf a ++ createsOf b := by
  simp [createsOf]

theorem createsOf_preludeEvents (info : MethodCallInfo) (s : State) :
    createsOf (preludeEvents info s) =
      match s.vm with
      | none => [1024]
      | some _ => [] := by
  unfold preludeEvents createsOf
  cases s.vm <;> simp

theorem createsOf_stepEvents (steps : List (DCBArg × DCArg)) :
    createsOf (stepEvents steps) = [] := by
  induction steps with
  | nil => rfl
  | cons st rest ih =>
    simp only [createsOf] at ih
    simp [stepEvents, createsOf, ih]

theorem createsOf_returnEvents (h : Host) (info : MethodCallInfo) (s : State) :
    createsOf (returnEvents h info s) = [] := by
  unfold returnEvents createsOf
  cases returnCall h info s <;> cases returnStore h info s <;> simp

/-- The handler creates the engine exactly when the thread has none. -/
theorem createsOf_handler (h : Host) (callback : Nat) (info : MethodCallInfo) (s : State) :
    createsOf (newEvents s (JavaToNativeCallHandler h callback (some info) s).2) =
      match s.vm with
      | none => [1024]
      | some _ => [] := by
  rw [newEvents_handler, newEvents_dispatch]
  simp only [createsOf_append, createsOf_preludeEvents, createsOf_stepEvents,
    createsOf_returnEvents]
  cases (doJavaToNativeCallHandler h info s).1 <;> cases s.vm <;> simp [createsOf]

theorem trace_handler (h : Host) (callback : Nat) (info : MethodCallInfo) (s : State) :
    (JavaToNativeCallHandler h callback (some info) s).2.trace =
      s.trace ++ newEvents s (JavaToNativeCallHandler h callback (some info) s).2 := by
  rw [newEvents_handler, newEvents_dispatch, JavaToNativeCallHandler_some]
  cases (doJavaToNativeCallHandler h info s).1 <;> simp [trace_dispatch]

/-- After the handler ran on a non-null descriptor the thread has an engine,
of the capacity of the engine it had or 1024 when it had none. -/
theorem vm_handler (h : Host) (callback : Nat) (info : MethodCallInfo) (s : State) :
    (JavaToNativeCallHandler h callback (some info) s).2.vm.map DCCallVM.size =
      some (engineSize s) := by
  rw [JavaToNativeCallHandler_some]
  cases (doJavaToNativeCallHandler h info s).1 <;>
    simp [doJavaToNativeCallHandler_eq, pushArguments_eq]

theorem runInvocations_append (h : Host) (pre post : List Invocation) (s : State) :
    runInvocations h (pre ++ post) s = runInvocations h post (runInvocations h pre s) := by
  induction pre generalizing s with
  | nil => rfl
  | cons c cs ih => simp [runInvocations, ih]

/-- A sequence of invocations extends the log; it creates an engine, once
and with capacity 1024, exactly when it is not empty and starts without an
engine; the engine keeps its capacity. -/
theorem runInvocations_engine (h : Host) (cs : List Invocation) (s : State) :
    (runInvocations h cs s).trace = s.trace ++ newEvents s (runInvocations h cs s) ∧
      createsOf (newEvents s (runInvocations h cs s)) =
        (match cs, s.vm with
          | _ :: _, none => [1024]
          | _, _ => []) ∧
      (runInvocations h cs s).vm.map DCCallVM.size =
        (match cs with
          | [] => s.vm.map DCCallVM.size
          | _ :: _ => some (engineSize s)) := by
  induction cs generalizing s with
  | nil =>
    refine ⟨by simp [runInvocations, newEvents], ?_, rfl⟩
    cases s.vm <;> simp [runInvocations, newEvents, createsOf]
  | cons c rest ih =>
    have htr := trace_handler h c.callback c.info (nextCall s c.args c.result)
    have hcr := createsOf_handler h c.callback c.info (nextCall s c.args c.result)
    have hvm := vm_handler h c.callback c.info (nextCall s c.args c.result)
    obtain ⟨ht, hc, hv⟩ := ih
      (JavaToNativeCallHandler h c.callback (some c.info) (nextCall s c.args c.result)).2
    have hfull : (runInvocations h (c :: rest) s).trace =
        s.trace ++
          (newEvents (nextCall s c.args c.result)
              (JavaToNativeCallHandler h c.callback (some c.info)
                (nextCall s c.args c.result)).2 ++
            newEvents
              (JavaToNativeCallHandler h c.callback (some c.info)
                (nextCall s c.args c.result)).2
              (runInvocations h rest
                (JavaToNativeCallHandler h c.callback (some c.info)
                  (nextCall s c.args c.result)).2)) := by
      rw [runInvocations, ht, htr]
      simp [nextCall]
    have hnew := newEvents_append s _ _ hfull
    have hsome : ∃ vm, (JavaToNativeCallHandler h c.callback (some c.info)
        (nextCall s c.args c.result)).2.vm = some vm := by
      cases hx : (JavaToNativeCallHandler h c.callback (some c.info)
          (nextCall s c.args c.result)).2.vm with
      | none => rw [hx] at hvm; simp at hvm
      | some vm => exact ⟨vm, rfl⟩
    obtain ⟨vm1, hvm1⟩ := hsome
    have hsize : vm1.size = engineSize s := by
      rw [hvm1] at hvm
      simpa [engineSize, nextCall] using hvm
    refine ⟨by rw [hnew]; exact hfull, ?_, ?_⟩
    · rw [hnew, createsOf_append, hcr, hc, hvm1]
      cases hs : s.vm <;> cases rest <;> simp [nextCall, hs]
    · rw [runInvocations, hv]
      cases rest with
      | nil => rw [hvm1]; simp [hsize]
      | cons d ds => simp [engineSize, hvm1, hsize]

/-- Claim C13: a sequence of invocations with non-null descriptors on a
thread whose engine pointer is still null.  The engine is created exactly
once, with capacity 1024, and that is during the first invocation; no later
invocation creates an engine, and the thread's engine is then the one of
capacity 1024 throughout. -/
theorem C13_engine_created_once (h : Host) (c : Invocation) (rest : List Invocation)
    (s : State) (hs : s.vm = none) :
    createsOf (newEvents s (runInvocations h (c :: rest) s)) = [1024] ∧
      createsOf (newEvents s (runInvocations h [c] s)) = [1024] ∧
      (∀ pre d post, rest = pre ++ d :: post →
        createsOf (newEvents (runInvocations h (c :: pre) s)
            (runInvocations h (c :: pre ++ [d]) s)) = [] ∧
          (runInvocations h (c :: pre) s).vm.map DCCallVM.size = some 1024 ∧
          (runInvocations h (c :: pre ++ [d]) s).vm.map DCCallVM.size = some 1024) ∧
      (runInvocations h (c :: rest) s).vm.map DCCallVM.size = some 1024 := by
  have hsz : engineSize s = 1024 := by simp [engineSize, hs]
  have hall : ∀ cs : List Invocation,
      (runInvocations h (c :: cs) s).vm.map DCCallVM.size = some 1024 := by
    intro cs
    rw [(runInvocations_engine h (c :: cs) s).2.2, hsz]
  refine ⟨?_, ?_, ?_, hall rest⟩
  · rw [(runInvocations_engine h (c :: rest) s).2.1, hs]
  · rw [(runInvocations_engine h [c] s).2.1, hs]
  · intro pre d post _
    refine ⟨?_, hall pre, ?_⟩
    · have happ : runInvocations h (c :: pre ++ [d]) s =
          runInvocations h [d] (runInvocations h (c :: pre) s) := by
        rw [runInvocations_append]
      rw [happ, (runInvocations_engine h [d] (runInvocations h (c :: pre) s)).2.1]
      have hv := hall pre
      cases hx : (runInvocations h (c :: pre) s).vm with
      | none => rw [hx] at hv; simp at hv
      | some vm => rfl
    · have := hall (pre ++ [d])
      simpa using this

/-- Witness of C13: three invocations on a fresh thread. -/
theorem C13_engine_created_once_witness :
    createsOf (newEvents (freshState [])
      (runInvocations (hostLP64 (constTarget 7))
        [{ callback := 0, info := descriptor [ValueType.eIntValue] ValueType.eIntValue,
           args := streamOf [70, 71, 5],
           result := { i := 0, l := 0, s := 0, f := 0, d := 0, c := 0 } },
         { callback := 0, info := descriptor [] ValueType.eVoidValue,
           args := streamOf [70, 71],
           result := { i := 0, l := 0, s := 0, f := 0, d := 0, c := 0 } },
         { callback := 0, info := descriptor [ValueType.eShortValue] ValueType.eWCharValue,
           args := streamOf [70, 71, 9],
           result := { i := 0, l := 0, s := 0, f := 0, d := 0, c := 0 } }]
        (freshState []))) = [1024] :=
  (C13_engine_created_once (hostLP64 (constTarget 7))
    { callback := 0, info := descriptor [ValueType.eIntValue] ValueType.eIntValue,
      args := streamOf [70, 71, 5],
      result := { i := 0, l := 0, s := 0, f := 0, d := 0, c := 0 } }
    [{ callback := 0, info := descriptor [] ValueType.eVoidValue,
       args := streamOf [70, 71],
       result := { i := 0, l := 0, s := 0, f := 0, d := 0, c := 0 } },
     { callback := 0, info := descriptor [ValueType.eShortValue] ValueType.eWCharValue,
       args := streamOf [70, 71, 9],
       result := { i := 0, l := 0, s := 0, f := 0, d := 0, c := 0 } }]
    (freshState []) rfl).1

/-! ### Parameters of kind Long -/

theorem toSigned64_of_fits (v : Int) (hlo : -2 ^ 63 ≤ v) (hhi : v < 2 ^ 63) :
    toSigned 64 v = v := by
  unfold toSigned
  norm_num at hlo hhi ⊢
  split_ifs <;> omega

/-- Claim C14: the turn of the parameter loop for a Long parameter, in any
state.  With v the 64-bit value read from the stream, the turn is one
`dcbArgLongLong` read and one `dcArgLong` push of v narrowed to the width of
the native `long`.  The pushed value is v when `long` is 8 bytes wide; when
it is 4 bytes wide it is v narrowed to 32 bits, which has the low 32 bits of
v, is a 32-bit integer, and equals v whenever v fits in 32 bits.  Every Long
parameter of a descriptor is handled by this turn. -/
theorem C14_long_parameter_push (h : Host) (s : State) :
    newEvents s (pushParam h ValueType.eCLongValue s) =
        [Event.read DCBArg.dcbArgLongLong,
          Event.push (DCArg.dcArgLong
            (toSigned (8 * h.sizeofLong) (toSigned 64 (s.args.slots s.args.pos))))] ∧
      pendingArgs (pushParam h ValueType.eCLongValue s) =
        (s.vm.map (fun vm => vm.args ++
          [DCArg.dcArgLong
            (toSigned (8 * h.sizeofLong) (toSigned 64 (s.args.slots s.args.pos)))])).getD [] ∧
      (h.sizeofLong = 8 →
        toSigned (8 * h.sizeofLong) (toSigned 64 (s.args.slots s.args.pos)) =
          toSigned 64 (s.args.slots s.args.pos)) ∧
      (h.sizeofLong = 4 →
        toSigned (8 * h.sizeofLong) (toSigned 64 (s.args.slots s.args.pos)) =
            toSigned 32 (toSigned 64 (s.args.slots s.args.pos)) ∧
          toSigned 32 (toSigned 64 (s.args.slots s.args.pos)) % 2 ^ 32 =
            toSigned 64 (s.args.slots s.args.pos) % 2 ^ 32 ∧
          -2 ^ 31 ≤ toSigned 32 (toSigned 64 (s.args.slots s.args.pos)) ∧
          toSigned 32 (toSigned 64 (s.args.slots s.args.pos)) < 2 ^ 31 ∧
          (-2 ^ 31 ≤ toSigned 64 (s.args.slots s.args.pos) ∧
              toSigned 64 (s.args.slots s.args.pos) < 2 ^ 31 →
            toSigned 32 (toSigned 64 (s.args.slots s.args.pos)) =
              toSigned 64 (s.args.slots s.args.pos))) ∧
      ∀ (pre post : List ValueType) (s0 : State),
        pushParams h (pre ++ ValueType.eCLongValue :: post) s0 =
          pushParams h post (pushParam h ValueType.eCLongValue (pushParams h pre s0)) := by
  refine ⟨?_, ?_, fun hw => ?_, fun hw => ?_, fun pre post s0 => ?_⟩
  · apply newEvents_append
    simp [pushParam, dcArg, dcbArgLongLong, dcbArg]
  · cases hvm : s.vm <;>
      simp [pushParam, dcArg, dcbArgLongLong, dcbArg, pendingArgs, hvm]
  · rw [hw]
    exact toSigned64_of_fits _ (toSigned64_range _).1 (toSigned64_range _).2
  · rw [hw]
    exact ⟨rfl, toSigned32_mod _, (toSigned32_range _).1, (toSigned32_range _).2,
      fun hv => toSigned32_of_fits _ hv.1 hv.2⟩
  · rw [pushParams_append]; rfl

/-! ### Order of the engine operations -/

theorem engineOpsOf_append (a b : List Event) :
    engineOpsOf (a ++ b) = engineOpsOf a ++ engineOpsOf b := by
  simp [engineOpsOf]

theorem engineOpsOf_preludeEvents (info : MethodCallInfo) (s : State) :
    engineOpsOf (preludeEvents info s) =
      (match s.vm with
        | none => [Event.newCallVM 1024]
        | some _ => []) ++ [Event.mode info.fDCMode] := by
  unfold preludeEvents engineOpsOf
  cases s.vm <;> simp

theorem engineOpsOf_stepEvents (steps : List (DCBArg × DCArg)) :
    engineOpsOf (stepEvents steps) = (steps.map Prod.snd).map Event.push := by
  induction steps with
  | nil => rfl
  | cons st rest ih =>
    simp only [engineOpsOf] at ih
    simp [stepEvents, engineOpsOf, ih]

theorem engineOpsOf_returnEvents (h : Host) (info : MethodCallInfo) (s : State) :
    engineOpsOf (returnEvents h info s) =
      (returnCall h info s).toList.map (fun c => Event.call c.1 c.2.1 c.2.2) := by
  unfold returnEvents engineOpsOf
  rcases returnCall h info s with _ | ⟨op, callback, pending⟩ <;>
    rcases returnStore h info s with _ | ⟨field, v⟩ <;> simp

/-- Claim C15: the engine operations of a dispatch with a non-null
descriptor are, in this order: the creation of the engine when the thread
had none, one mode setting with the mode of the descriptor, all the pushes,
then the calls, of which there is at most one.  So no push precedes the mode
setting and none follows the call.  Every call targets the symbol of the
descriptor, and there is exactly one call when the return kind is one of
Int32, Int64, Int16, Byte, Float32, Float64, Long, SizeT and Void (none for
any other kind).  The handler adds no engine operation to those of the
dispatch. -/
theorem C15_engine_operation_order (h : Host) (callback : Nat) (info : MethodCallInfo)
    (s : State) :
    engineOpsOf (newEvents s (doJavaToNativeCallHandler h info s).2) =
        (match s.vm with
          | none => [Event.newCallVM 1024]
          | some _ => []) ++
        [Event.mode info.fDCMode] ++
        (pushesOf (newEvents s (doJavaToNativeCallHandler h info s).2)).map Event.push ++
        (callsOf (newEvents s (doJavaToNativeCallHandler h info s).2)).map
          (fun c => Event.call c.1 c.2.1 c.2.2) ∧
      (callsOf (newEvents s (doJavaToNativeCallHandler h info s).2)).length ≤ 1 ∧
      (callsOf (newEvents s (doJavaToNativeCallHandler h info s).2)).length =
        (if issuesCall info.fReturnType = true then 1 else 0) ∧
      (∀ c ∈ callsOf (newEvents s (doJavaToNativeCallHandler h info s).2),
        c.2.1 = info.fForwardedSymbol) ∧
      engineOpsOf (newEvents s (JavaToNativeCallHandler h callback (some info) s).2) =
        engineOpsOf (newEvents s (doJavaToNativeCallHandler h info s).2) := by
  have hlen : (callsOf (newEvents s (doJavaToNativeCallHandler h info s).2)).length =
      (if issuesCall info.fReturnType = true then 1 else 0) := by
    rw [(dispatch_summary h info s).1]
    have hplan := returnPlan_isSome h info.fReturnType
    cases hp : returnPlan h info.fReturnType <;> rw [hp] at hplan <;> simp [← hplan]
  refine ⟨?_, ?_, hlen, ?_, ?_⟩
  · rw [pushesOf_dispatch, callsOf_dispatch, newEvents_dispatch]
    simp [engineOpsOf_append, engineOpsOf_preludeEvents, engineOpsOf_stepEvents,
      engineOpsOf_returnEvents]
  · rw [hlen]; split <;> simp
  · intro c hc
    rw [(dispatch_summary h info s).1] at hc
    cases hp : returnPlan h info.fReturnType with
    | none => simp [hp] at hc
    | some plan =>
      simp only [hp, Option.map_some', Option.toList_some, List.mem_singleton] at hc
      rw [hc]
  · rw [newEvents_handler, engineOpsOf_append]
    cases (doJavaToNativeCallHandler h info s).1 <;> simp [engineOpsOf]

/-! ### The tag as a function of the return kind -/

/-- Claim C16: a dispatch answers the tag `kindTag` of its return kind,
unless a call is issued and the target faults.  So when no fault occurs the
tag depends on the return kind alone: two dispatches with the same return
kind answer the same tag, whatever their parameters, streams, symbols,
targets and the prior state of the thread.  WideChar and the unrecognised
kinds have the tag of Void. -/
theorem C16_tag_depends_on_return_kind (h : Host) (info : MethodCallInfo) (s : State) :
    (doJavaToNativeCallHandler h info s).1 =
        (if issuesCall info.fReturnType = true ∧
            h.native info.fForwardedSymbol info.fDCMode
              (pushesOf (newEvents s (doJavaToNativeCallHandler h info s).2)) = none
          then none else some (kindTag h.sig info.fReturnType)) ∧
      (∀ (h2 : Host) (info2 : MethodCallInfo) (s2 : State) (t1 t2 : Int),
        h2.sig = h.sig → info2.fReturnType = info.fReturnType →
        (doJavaToNativeCallHandler h info s).1 = some t1 →
        (doJavaToNativeCallHandler h2 info2 s2).1 = some t2 → t1 = t2) ∧
      kindTag h.sig ValueType.eWCharValue = h.sig.DC_SIGCHAR_VOID ∧
      (∀ code, kindTag h.sig (ValueType.unrecognised code) = h.sig.DC_SIGCHAR_VOID) ∧
      kindTag h.sig ValueType.eVoidValue = h.sig.DC_SIGCHAR_VOID := by
  have key : ∀ (h : Host) (info : MethodCallInfo) (s : State) (t : Int),
      (doJavaToNativeCallHandler h info s).1 = some t → t = kindTag h.sig info.fReturnType := by
    intro h info s t ht
    rw [(dispatch_summary h info s).2.1] at ht
    cases hk : info.fReturnType <;>
      cases hn : h.native info.fForwardedSymbol info.fDCMode
        (pushesOf (newEvents s (doJavaToNativeCallHandler h info s).2)) <;>
      simp [hk, hn, returnPlan, kindTag] at ht ⊢ <;>
      exact ht.symm
  refine ⟨?_, ?_, rfl, fun _ => rfl, rfl⟩
  · rw [(dispatch_summary h info s).2.1]
    cases hk : info.fReturnType <;>
      cases h.native info.fForwardedSymbol info.fDCMode
        (pushesOf (newEvents s (doJavaToNativeCallHandler h info s).2)) <;>
      simp [returnPlan, kindTag, issuesCall]
  · intro h2 info2 s2 t1 t2 hsig hkind ht1 ht2
    rw [key h info s t1 ht1, key h2 info2 s2 t2 ht2, hsig, hkind]

end JDyncall
